import Mathlib

/-!
# Verification of the GcodeToolbox toolpath core

Shallow embedding of the geometry and toolpath-generation functions of
`Gcode generator/main.js` (depth layering, polygon signed area, contour
offsetting, spiral pocket generation, tab profiles, arc fitting and the
origin transform), together with theorems settling the specification
claims about them.

JavaScript numbers are modelled as exact rationals (`ℚ`) where the code
is closed under rational arithmetic, and as reals (`ℝ`) where square
roots or trigonometric functions occur.  `Math.ceil` is `Int.ceil`,
`Math.round` is `fun v => ⌊v + 1/2⌋` (JavaScript rounds halves up, also
for negative arguments), `Math.hypot` is `Real.sqrt (x^2 + y^2)`.
-/

namespace Gcode

/-- `Math.round` of JavaScript: round half toward positive infinity. -/
def jsRound {α : Type} [LinearOrderedField α] [FloorRing α] (v : α) : ℤ :=
  ⌊v + 1/2⌋

/-- `round1` from `computeDepthLevels`: `Math.round(v * 10) / 10`. -/
def round1 {α : Type} [LinearOrderedField α] [FloorRing α] (v : α) : α :=
  (jsRound (v * 10) : α) / 10

/-- `Math.max(1, Math.ceil(totalDepth / stepdown))` from `computeDepthLevels`. -/
def numLayersFor {α : Type} [LinearOrderedField α] [FloorRing α]
    (totalDepth stepdown : α) : ℕ :=
  max 1 (⌈totalDepth / stepdown⌉.toNat)

/-- `layerHeight = totalDepth / numLayers` from `computeDepthLevels`. -/
def layerHeightFor {α : Type} [LinearOrderedField α] [FloorRing α]
    (totalDepth stepdown : α) : α :=
  totalDepth / ((numLayersFor totalDepth stepdown : ℕ) : α)

/--
`computeDepthLevels(totalDepth, stepdown)` from `main.js`: for
`i = 1 .. numLayers` the value `-round1(Math.abs(z))` is pushed, where
`z = -totalDepth` for the last layer and `z = -i * layerHeight`
otherwise.
-/
def computeDepthLevels {α : Type} [LinearOrderedField α] [FloorRing α]
    (totalDepth stepdown : α) : List α :=
  (List.range (numLayersFor totalDepth stepdown)).map (fun i =>
    -(round1 (abs (if i + 1 = numLayersFor totalDepth stepdown then -totalDepth
      else -(((i : α) + 1) * layerHeightFor totalDepth stepdown)))))

/-! ## Geometry primitives -/

/-- A 3D point `{x, y, z}` (millimeters), as used throughout `main.js`. -/
structure Pt where
  x : ℝ
  y : ℝ
  z : ℝ

instance : Inhabited Pt := ⟨⟨0, 0, 0⟩⟩

/-- `Math.hypot(dx, dy)`. -/
noncomputable def hypot (dx dy : ℝ) : ℝ := Real.sqrt (dx ^ 2 + dy ^ 2)

/-- `distance2D(a, b)` from `main.js`. -/
noncomputable def distance2D (a b : Pt) : ℝ := hypot (a.x - b.x) (a.y - b.y)

/-- `x`-coordinate of the `i`-th vertex (cyclic access helper). -/
noncomputable def ptX (pts : List Pt) (i : ℕ) : ℝ := (pts.getD i default).x

/-- `y`-coordinate of the `i`-th vertex (cyclic access helper). -/
noncomputable def ptY (pts : List Pt) (i : ℕ) : ℝ := (pts.getD i default).y

/--
`polygonSignedArea2(pts)` from `main.js`: `0` for fewer than 3 points,
otherwise `sum += (pts[j].x - pts[i].x) * (pts[j].y + pts[i].y)` with
`j = (i + 1) % n` over all `i`.
-/
noncomputable def polygonSignedArea2 (pts : List Pt) : ℝ :=
  if pts.length < 3 then 0
  else ∑ i in Finset.range pts.length,
    (ptX pts ((i + 1) % pts.length) - ptX pts i) *
      (ptY pts ((i + 1) % pts.length) + ptY pts i)

/--
Modelled from the spec: the standard shoelace value — twice the signed
area of the polygon, positive exactly when the vertices are ordered
counter-clockwise (in the usual mathematical orientation, y up).
Guarded by the same "fewer than 3 points" convention as the code.
-/
noncomputable def signedAreaDouble (pts : List Pt) : ℝ :=
  if pts.length < 3 then 0
  else ∑ i in Finset.range pts.length,
    (ptX pts i * ptY pts ((i + 1) % pts.length) -
      ptX pts ((i + 1) % pts.length) * ptY pts i)

/-- The counter-clockwise unit square (mathematical orientation, y up). -/
def unitSquareCCW : List Pt := [⟨0, 0, 0⟩, ⟨1, 0, 0⟩, ⟨1, 1, 0⟩, ⟨0, 1, 0⟩]

/-! ## Toolpath moves and the origin transform -/

/-- Move type: `rapid`, `cut`, or `arc` with incremental center offset and
clockwise flag (the `i`, `j` of an arc move are RELATIVE offsets, which the
origin transform does not touch). -/
inductive MoveKind where
  | rapid : MoveKind
  | cut : MoveKind
  | arc : ℝ → ℝ → Bool → MoveKind

/-- A toolpath move `{x, y, z, type, ...}` from `main.js`. -/
structure Move where
  x : ℝ
  y : ℝ
  z : ℝ
  kind : MoveKind

instance : Inhabited Move := ⟨⟨0, 0, 0, .rapid⟩⟩

/-- `xyOrigin` values. -/
inductive XYOrigin where
  | center | bottomLeft | bottomRight | topLeft | topRight
deriving DecidableEq

/-- `zOrigin` values. -/
inductive ZOrigin where
  | stockTop | stockBottom
deriving DecidableEq

/-- `originParams` as consumed by `applyOriginTransform`. -/
structure OriginParams where
  xyOrigin : XYOrigin
  zOrigin : ZOrigin
  zOffset : ℝ

/-- Operation kinds relevant to `applyOriginTransform`. -/
inductive OperationType where
  | pocket | contour | facing
deriving DecidableEq

/-- `contourType` values. -/
inductive ContourSide where
  | inside | outside
deriving DecidableEq

/-- Minimum of the move `x` coordinates.  The JS code folds `min` starting
from `Infinity`; for a nonempty list this equals folding from the first
element, and for the empty list the value is never used (no move is
transformed), so `0` stands in. -/
noncomputable def movesMinX : List Move → ℝ
  | [] => 0
  | m :: ms => ms.foldl (fun a mm => min a mm.x) m.x

/-- Maximum of the move `x` coordinates (see `movesMinX`). -/
noncomputable def movesMaxX : List Move → ℝ
  | [] => 0
  | m :: ms => ms.foldl (fun a mm => max a mm.x) m.x

/-- Minimum of the move `y` coordinates (see `movesMinX`). -/
noncomputable def movesMinY : List Move → ℝ
  | [] => 0
  | m :: ms => ms.foldl (fun a mm => min a mm.y) m.y

/-- Maximum of the move `y` coordinates (see `movesMinX`). -/
noncomputable def movesMaxY : List Move → ℝ
  | [] => 0
  | m :: ms => ms.foldl (fun a mm => max a mm.y) m.y

/--
The `(shiftX, shiftY)` pair computed by `applyOriginTransform` from the
bounding box of the moves, the requested origin corner, the operation
(facing with bounds / outside contour / pocket-inside) and the tool
radius `r`.
-/
noncomputable def originShiftXY (moves : List Move) (xy : XYOrigin) (r : ℝ)
    (op : OperationType) (ct : ContourSide) (facingBounds : Option (ℝ × ℝ)) :
    ℝ × ℝ :=
  let minX := movesMinX moves
  let minY := movesMinY moves
  let maxX := movesMaxX moves
  let maxY := movesMaxY moves
  match op, facingBounds with
  | .facing, some (hw, hh) =>
    match xy with
    | .bottomLeft => (hw, hh)
    | .bottomRight => (-hw, hh)
    | .topLeft => (hw, -hh)
    | .topRight => (-hw, -hh)
    | .center => (0, 0)
  | _, _ =>
    if xy = .center then (-(minX + maxX) / 2, -(minY + maxY) / 2)
    else if op = .contour ∧ ct = .outside then
      match xy with
      | .bottomLeft => (-minX - r, -minY - r)
      | .bottomRight => (r - maxX, -minY - r)
      | .topLeft => (-minX - r, r - maxY)
      | .topRight => (r - maxX, r - maxY)
      | .center => (-minX - r, -minY - r)
    else
      match xy with
      | .bottomLeft => (-minX + r, -minY + r)
      | .bottomRight => (-maxX - r, r - minY)
      | .topLeft => (r - minX, -maxY - r)
      | .topRight => (-maxX - r, -maxY - r)
      | .center => (-minX + r, -minY + r)

/--
`applyOriginTransform(moves, originParams, totalDepth, toolRadiusForXYShift,
operation, contourType, facingBounds)` from `main.js`: one `(shiftX, shiftY)`
added to every move's x/y, `totalDepth` added to z when `zOrigin` is
stock-bottom, and the user `zOffset` added to every z.
-/
noncomputable def applyOriginTransform (moves : List Move) (originParams : OriginParams)
    (totalDepth r : ℝ) (op : OperationType) (ct : ContourSide)
    (facingBounds : Option (ℝ × ℝ)) : List Move :=
  let s := originShiftXY moves originParams.xyOrigin r op ct facingBounds
  let zShift := (if originParams.zOrigin = .stockBottom then totalDepth else 0) +
    originParams.zOffset
  moves.map (fun m => ⟨m.x + s.1, m.y + s.2, m.z + zShift, m.kind⟩)

/-! ## Tab configuration and Z profile -/

/-- A tab range `[start, stop]` of cumulative arc length (the JS field
`end` is a Lean keyword, hence `stop`). -/
structure TabRange where
  start : ℝ
  stop : ℝ

/-- The derived tab configuration built by `buildTabConfig` (the JS
object also carries `enabled: true` and the cumulative-distance array,
which the profile function does not read). -/
structure TabConfig where
  ranges : List TabRange
  totalLength : ℝ
  totalLengthClosed : ℝ
  tabZ : ℝ
  tabWidth : ℝ

/-- Sum of `distance2D` over consecutive path points (the `totalLen`
accumulated by `buildTabConfig`). -/
noncomputable def openPathLength : List Pt → ℝ
  | [] => 0
  | [_] => 0
  | a :: b :: rest => distance2D a b + openPathLength (b :: rest)

/-- The closing edge length `distance2D(path[path.length-1], path[0])`. -/
noncomputable def closingLength (path : List Pt) : ℝ :=
  distance2D (path.getLast?.getD default) (path.head?.getD default)

/-- `n = Math.max(1, Math.round(totalLengthClosed / interval))`. -/
noncomputable def tabCount (lc interval : ℝ) : ℕ :=
  max 1 (jsRound (lc / interval)).toNat

/-- `spacing = totalLengthClosed / n`. -/
noncomputable def tabSpacing (lc interval : ℝ) : ℝ :=
  lc / ((tabCount lc interval : ℕ) : ℝ)

/-- The tab ranges built by `buildTabConfig`: centers `(i + 0.5)*spacing`,
clipped to `[0, totalLengthClosed]`, kept when nonempty. -/
noncomputable def tabRangesFor (lc interval width : ℝ) : List TabRange :=
  (List.range (tabCount lc interval)).filterMap (fun (i : ℕ) =>
    if max 0 (((i : ℝ) + 1/2) * tabSpacing lc interval - width / 2) <
        min lc (((i : ℝ) + 1/2) * tabSpacing lc interval + width / 2) then
      some ⟨max 0 (((i : ℝ) + 1/2) * tabSpacing lc interval - width / 2),
        min lc (((i : ℝ) + 1/2) * tabSpacing lc interval + width / 2)⟩
    else none)

/--
`buildTabConfig(path, interval, width, totalDepth, tabHeight)` from
`main.js`; `tabZ = -Math.max(0, totalDepth - tabHeight)`.
-/
noncomputable def buildTabConfig (path : List Pt)
    (interval width totalDepth tabHeight : ℝ) : Option TabConfig :=
  if path.length < 2 ∨ interval ≤ 0 ∨ width ≤ 0 ∨ tabHeight ≤ 0 then none
  else if openPathLength path ≤ 0 then none
  else if (tabRangesFor (openPathLength path + closingLength path) interval width).length = 0
    then none
  else some ⟨tabRangesFor (openPathLength path + closingLength path) interval width,
    openPathLength path, openPathLength path + closingLength path,
    -(max 0 (totalDepth - tabHeight)), width⟩

/-- The per-range body of `getZForTabProfile` (everything after the
`s < r.start || s > r.end` test has accepted range `r`). -/
noncomputable def tabRangeZ (s depthZ tabZ tabWidth : ℝ) (r : TabRange) : ℝ :=
  if min (1/4 * tabWidth) ((r.stop - r.start) / 2) ≤ 1/1000000000 then tabZ
  else if s ≤ r.start + min (1/4 * tabWidth) ((r.stop - r.start) / 2) then
    depthZ + ((s - r.start) / min (1/4 * tabWidth) ((r.stop - r.start) / 2)) *
      (tabZ - depthZ)
  else if s ≥ r.stop - min (1/4 * tabWidth) ((r.stop - r.start) / 2) then
    tabZ + ((s - (r.stop - min (1/4 * tabWidth) ((r.stop - r.start) / 2))) /
      min (1/4 * tabWidth) ((r.stop - r.start) / 2)) * (depthZ - tabZ)
  else tabZ

/-- The `for (const r of tabConfig.ranges)` loop of `getZForTabProfile`:
the first range containing `s` determines Z; otherwise `depthZ`. -/
noncomputable def tabLoopZ (s depthZ tabZ tabWidth : ℝ) : List TabRange → ℝ
  | [] => depthZ
  | r :: rest =>
    if s < r.start ∨ s > r.stop then tabLoopZ s depthZ tabZ tabWidth rest
    else tabRangeZ s depthZ tabZ tabWidth r

/--
`getZForTabProfile(s, depthZ, tabConfig)` from `main.js`: `depthZ` when
there is no config or the layer is shallower than the tab top
(`depthZ >= tabZ + 1e-6`) or the ramp length `0.25 * tabWidth` is
degenerate; otherwise the first matching range's 3-segment profile.
-/
noncomputable def getZForTabProfile (s depthZ : ℝ) (tabConfig : Option TabConfig) : ℝ :=
  match tabConfig with
  | none => depthZ
  | some c =>
    if depthZ ≥ c.tabZ + 1/1000000 then depthZ
    else if 1/4 * c.tabWidth ≤ 1/1000000000 then depthZ
    else tabLoopZ s depthZ c.tabZ c.tabWidth c.ranges

/-- The unclipped tab range around the `k`-th center. -/
noncomputable def evenTabRange (spacing width : ℝ) (k : ℕ) : TabRange :=
  ⟨((k : ℝ) + 1/2) * spacing - width / 2, ((k : ℝ) + 1/2) * spacing + width / 2⟩

/-! ## Spiral pocket for circles -/

/-- `segmentsForCircleRadius(radiusMm)` from `main.js`: chord-sagitta
bound 0.01 mm, clamped to [4, 360] segments. -/
noncomputable def segmentsForCircleRadius (radius : ℝ) : ℕ :=
  if radius ≤ 0 then 4
  else max 4 (min 360
    (⌈Real.pi / Real.arccos (max (-1) (1 - (1/100) / radius))⌉.toNat))

/-- A point of a circle of radius `R` at angle `θ`, at Z = 0. -/
noncomputable def circlePt (R θ : ℝ) : Pt :=
  ⟨R * Real.cos θ, R * Real.sin θ, 0⟩

/-- A full circle `i = 0 .. segments` at radius `R` (both endpoints). -/
noncomputable def ringClosed (R : ℝ) (segments : ℕ) : List Pt :=
  (List.range (segments + 1)).map (fun (i : ℕ) =>
    circlePt R (((i : ℝ) / (segments : ℝ)) * (2 * Real.pi)))

/-- The small-pocket branch (`outerRingRadius < toolRadius`): start at the
center, one spiral winding out, then the rim circle starting at angle 2π. -/
noncomputable def smallPocketPts (outerR : ℝ) (segments : ℕ) : List Pt :=
  ⟨0, 0, 0⟩ ::
    ((List.range segments).map (fun (i : ℕ) =>
      circlePt ((((i : ℝ) + 1) / (segments : ℝ)) * outerR)
        ((((i : ℝ) + 1) / (segments : ℝ)) * (2 * Real.pi))) ++
    (List.range segments).map (fun (i : ℕ) =>
      circlePt outerR (2 * Real.pi + (((i : ℝ) + 1) / (segments : ℝ)) * (2 * Real.pi))))

/-- `turns = Math.max(1, Math.ceil(radialSpan / stepover))`. -/
noncomputable def spiralTurns (radialSpan stepover : ℝ) : ℕ :=
  max 1 (⌈radialSpan / stepover⌉.toNat)

/-- The connecting spiral, `i = 1 .. steps`, radius interpolated linearly
from `innerR` to `innerR + radialSpan` while the angle sweeps
`turns * 2π`. -/
noncomputable def spiralPart (innerR radialSpan : ℝ) (turns steps : ℕ) : List Pt :=
  (List.range steps).map (fun (i : ℕ) =>
    circlePt (innerR + radialSpan * (((i : ℝ) + 1) / (steps : ℝ)))
      ((((i : ℝ) + 1) / (steps : ℝ)) * ((turns : ℝ) * (2 * Real.pi))))

/-- The closing outer ring, `i = 1 .. segments`, starting at the spiral's
end angle. -/
noncomputable def closingRing (outerR : ℝ) (segments : ℕ) (startAngle : ℝ) : List Pt :=
  (List.range segments).map (fun (i : ℕ) =>
    circlePt outerR (startAngle + (((i : ℝ) + 1) / (segments : ℝ)) * (2 * Real.pi)))

/--
`generateSpiralPocketCircle(shapeParams, stepover, toolRadius)` from
`main.js` (with `diameter = shapeParams.diameter`):
`pocketBoundaryRadius = diameter/2`, `outerRingRadius = boundary - toolRadius`;
empty when `outerRingRadius <= 0`; the small-pocket path when
`outerRingRadius < toolRadius`; a single rim circle when
`radialSpan <= 1e-9`; otherwise inner ring + spiral + closing ring.
-/
noncomputable def generateSpiralPocketCircle (diameter stepover toolRadius : ℝ) :
    List Pt :=
  if diameter / 2 - toolRadius ≤ 0 then []
  else if diameter / 2 - toolRadius < toolRadius then
    smallPocketPts (diameter / 2 - toolRadius) (segmentsForCircleRadius (diameter / 2))
  else if diameter / 2 - toolRadius - toolRadius ≤ 1/1000000000 then
    ringClosed (diameter / 2 - toolRadius) (segmentsForCircleRadius (diameter / 2))
  else
    ringClosed toolRadius (segmentsForCircleRadius (diameter / 2)) ++
    spiralPart toolRadius (diameter / 2 - toolRadius - toolRadius)
      (spiralTurns (diameter / 2 - toolRadius - toolRadius) stepover)
      (max (segmentsForCircleRadius (diameter / 2) *
        spiralTurns (diameter / 2 - toolRadius - toolRadius) stepover) 1) ++
    closingRing (diameter / 2 - toolRadius) (segmentsForCircleRadius (diameter / 2))
      ((spiralTurns (diameter / 2 - toolRadius - toolRadius) stepover : ℝ) *
        (2 * Real.pi))

/-! ## Pockets equal to the tool diameter: drill degeneration -/

/-- A point of an axis-aligned ellipse at parameter angle `θ`. -/
noncomputable def ellipsePt (rx ry θ : ℝ) : Pt :=
  ⟨rx * Real.cos θ, ry * Real.sin θ, 0⟩

/--
`generateSpiralPocketEllipse(shapeParams, stepover, toolRadius)` from
`main.js` (with `major, minor` the ellipse axes).
-/
noncomputable def generateSpiralPocketEllipse (major minor stepover toolRadius : ℝ) :
    List Pt :=
  if major / 2 - toolRadius ≤ 0 ∨ minor / 2 - toolRadius ≤ 0 then []
  else
    if 1 - toolRadius / min (major / 2 - toolRadius) (minor / 2 - toolRadius) ≤
        1/1000000000 then
      (List.range (segmentsForCircleRadius
          (max (major / 2 - toolRadius) (minor / 2 - toolRadius)) + 1)).map
        (fun (i : ℕ) => ellipsePt (major / 2 - toolRadius) (minor / 2 - toolRadius)
          (((i : ℝ) / ((segmentsForCircleRadius
            (max (major / 2 - toolRadius) (minor / 2 - toolRadius)) : ℕ) : ℝ)) *
            (2 * Real.pi)))
    else
      (List.range (segmentsForCircleRadius
          (max (major / 2 - toolRadius) (minor / 2 - toolRadius)) + 1)).map
        (fun (i : ℕ) =>
          ellipsePt
            ((toolRadius / min (major / 2 - toolRadius) (minor / 2 - toolRadius)) *
              (major / 2 - toolRadius))
            ((toolRadius / min (major / 2 - toolRadius) (minor / 2 - toolRadius)) *
              (minor / 2 - toolRadius))
            (((i : ℝ) / ((segmentsForCircleRadius
              (max (major / 2 - toolRadius) (minor / 2 - toolRadius)) : ℕ) : ℝ)) *
              (2 * Real.pi))) ++
      (List.range (max (segmentsForCircleRadius
          (max (major / 2 - toolRadius) (minor / 2 - toolRadius)) *
          spiralTurns ((1 - toolRadius / min (major / 2 - toolRadius)
            (minor / 2 - toolRadius)) * min (major / 2 - toolRadius)
            (minor / 2 - toolRadius)) stepover) 1)).map
        (fun (i : ℕ) =>
          ellipsePt
            ((toolRadius / min (major / 2 - toolRadius) (minor / 2 - toolRadius) +
              (1 - toolRadius / min (major / 2 - toolRadius) (minor / 2 - toolRadius)) *
                (((i : ℝ) + 1) / ((max (segmentsForCircleRadius
                  (max (major / 2 - toolRadius) (minor / 2 - toolRadius)) *
                  spiralTurns ((1 - toolRadius / min (major / 2 - toolRadius)
                    (minor / 2 - toolRadius)) * min (major / 2 - toolRadius)
                    (minor / 2 - toolRadius)) stepover) 1 : ℕ) : ℝ))) *
              (major / 2 - toolRadius))
            ((toolRadius / min (major / 2 - toolRadius) (minor / 2 - toolRadius) +
              (1 - toolRadius / min (major / 2 - toolRadius) (minor / 2 - toolRadius)) *
                (((i : ℝ) + 1) / ((max (segmentsForCircleRadius
                  (max (major / 2 - toolRadius) (minor / 2 - toolRadius)) *
                  spiralTurns ((1 - toolRadius / min (major / 2 - toolRadius)
                    (minor / 2 - toolRadius)) * min (major / 2 - toolRadius)
                    (minor / 2 - toolRadius)) stepover) 1 : ℕ) : ℝ))) *
              (minor / 2 - toolRadius))
            ((((i : ℝ) + 1) / ((max (segmentsForCircleRadius
              (max (major / 2 - toolRadius) (minor / 2 - toolRadius)) *
              spiralTurns ((1 - toolRadius / min (major / 2 - toolRadius)
                (minor / 2 - toolRadius)) * min (major / 2 - toolRadius)
                (minor / 2 - toolRadius)) stepover) 1 : ℕ) : ℝ)) *
              ((spiralTurns ((1 - toolRadius / min (major / 2 - toolRadius)
                (minor / 2 - toolRadius)) * min (major / 2 - toolRadius)
                (minor / 2 - toolRadius)) stepover : ℕ) : ℝ) * (2 * Real.pi))) ++
      (List.range (segmentsForCircleRadius
          (max (major / 2 - toolRadius) (minor / 2 - toolRadius)))).map
        (fun (i : ℕ) =>
          ellipsePt (major / 2 - toolRadius) (minor / 2 - toolRadius)
            (((spiralTurns ((1 - toolRadius / min (major / 2 - toolRadius)
              (minor / 2 - toolRadius)) * min (major / 2 - toolRadius)
              (minor / 2 - toolRadius)) stepover : ℕ) : ℝ) * (2 * Real.pi) +
              (((i : ℝ) + 1) / ((segmentsForCircleRadius
                (max (major / 2 - toolRadius) (minor / 2 - toolRadius)) : ℕ) : ℝ)) *
              (2 * Real.pi)))

/-- The rectangle-spiral `while` loop of `generateSpiralPocketRectangle`:
each pass shrinks `[L,R] × [B,T]` inward by `stepover`.  `fuel` is any
upper bound on the iteration count (the loop exits by its condition, so
any sufficient fuel yields the same list). -/
noncomputable def rectSpiralLoop (stepover : ℝ) : ℝ → ℝ → ℝ → ℝ → ℕ → List Pt
  | _, _, _, _, 0 => []
  | L, R, B, T, fuel + 1 =>
    if L < R - 1/1000000000 ∧ B < T - 1/1000000000 then
      [⟨R, B, 0⟩, ⟨R, T, 0⟩, ⟨L, T, 0⟩] ++
      (if L + stepover < R - 1/1000000000 ∧ B + stepover < T - 1/1000000000 then
        [⟨L, B + stepover, 0⟩, ⟨L + stepover, B + stepover, 0⟩] else []) ++
      rectSpiralLoop stepover (L + stepover) (R - stepover) (B + stepover)
        (T - stepover) fuel
    else []

/--
`generateSpiralPocketRectangle(shape, shapeParams, stepover, toolRadius)`
from `main.js`, with the half-extents `hw, hh` already computed from the
shape: spiral path reversed to start innermost, closed by the two final
edge moves.
-/
noncomputable def generateSpiralPocketRectangle (hw hh stepover : ℝ) : List Pt :=
  if hw ≤ 0 ∨ hh ≤ 0 then []
  else
    (rectSpiralLoop stepover (-hw) hw (-hh) hh
        ((⌈(2 * max hw hh) / stepover⌉.toNat) + 1)).reverse ++
      [⟨-hw, -hh, 0⟩, ⟨-hw, hh, 0⟩]

/-- The pocket shapes with an equal-to-tool "drill" special case. -/
inductive PocketShape where
  | circle (diameter : ℝ)
  | ellipse (major minor : ℝ)
  | square (size : ℝ)

/-- `getShapeMinSize(shape, shapeParams)` from `main.js`, restricted to
the three shapes of the claim. -/
noncomputable def getShapeMinSize : PocketShape → ℝ
  | .circle d => d
  | .ellipse a b => min a b
  | .square s => s

/--
The `pocketPaths` computed by `generateToolpath` for a pocket operation
(lines selecting the special equal-to-tool-diameter case with
`epsSize = 1e-6`, else one spiral path per shape).
-/
noncomputable def pocketPathsFor (shape : PocketShape) (stepover toolDiameter : ℝ) :
    List (List Pt) :=
  if abs (getShapeMinSize shape - toolDiameter) ≤ 1/1000000 then [[⟨0, 0, 0⟩]]
  else
    match shape with
    | .circle d => [generateSpiralPocketCircle d stepover (toolDiameter / 2)]
    | .ellipse a b => [generateSpiralPocketEllipse a b stepover (toolDiameter / 2)]
    | .square sz => [generateSpiralPocketRectangle (sz / 2 - toolDiameter / 2)
        (sz / 2 - toolDiameter / 2) stepover]

/--
The single-point branch of `addLayerForPath` (`path.length === 1`):
retract if the previous move is below the safe plane, rapid to the point
at safe height, rapid down to the lead-in height when the safe height
exceeds it, then cut to Z = 0 and to the layer depth.
-/
noncomputable def drillMovesForPoint :
    Option Move → ℝ → ℝ → ℝ → ℝ → ℝ → List Move
  | none, cx, cy, safeZ, leadInAbove, depthZ =>
    [⟨cx, cy, safeZ, .rapid⟩] ++
    (if safeZ > leadInAbove then [⟨cx, cy, leadInAbove, .rapid⟩] else []) ++
    [⟨cx, cy, 0, .cut⟩, ⟨cx, cy, depthZ, .cut⟩]
  | some last, cx, cy, safeZ, leadInAbove, depthZ =>
    (if last.z < safeZ - 1/1000000 then [⟨last.x, last.y, safeZ, .rapid⟩] else []) ++
    [⟨cx, cy, safeZ, .rapid⟩] ++
    (if safeZ > leadInAbove then [⟨cx, cy, leadInAbove, .rapid⟩] else []) ++
    [⟨cx, cy, 0, .cut⟩, ⟨cx, cy, depthZ, .cut⟩]

/--
The `depths.forEach` loop of `generateToolpath` for a pocket whose path
list is the single point `(cx, cy)`: each layer appends the single-point
branch of `addLayerForPath`.
-/
noncomputable def pocketDrillLayers (cx cy safeZ leadInAbove : ℝ) :
    List ℝ → List Move → List Move
  | [], moves => moves
  | depthZ :: rest, moves =>
    pocketDrillLayers cx cy safeZ leadInAbove rest
      (moves ++ drillMovesForPoint moves.getLast? cx cy safeZ leadInAbove depthZ)

/-- The expected drill sequence for one layer at the center `(0,0)`
(`first` marks the very first layer, which needs no retract). -/
noncomputable def drillSeqSpec (first : Bool) (safeZ leadInAbove depthZ : ℝ) :
    List Move :=
  (if first then [] else [⟨0, 0, safeZ, .rapid⟩]) ++
  [⟨0, 0, safeZ, .rapid⟩] ++
  (if safeZ > leadInAbove then [⟨0, 0, leadInAbove, .rapid⟩] else []) ++
  [⟨0, 0, 0, .cut⟩, ⟨0, 0, depthZ, .cut⟩]

/-! ## Contour offsetting -/

/-- The failure exits of `contourOffset`, one constructor per `return null`
site (the code stores the quoted Dutch `failReason` strings; the two
`collapsed`/`tooFewResult` exits return null without setting a reason). -/
inductive OffsetFail where
  | tooShort           -- "contour te kort of leeg"
  | tooFewAfterDedup   -- "te weinig punten na opschonen"
  | collapsedInCleanup -- cleanup pass left fewer than 3 points
  | zeroEdge           -- "nul-rand in contour (letter te smal voor offset)"
  | tooFewResult       -- result shorter than 3 points
  | areaTooSmall       -- "te kleine oppervlakte na offset"
  | windingFlipped     -- "polygoon kantelt na offset"
deriving DecidableEq

/-- Tail of the deduplication scan: keep `p` when it differs from the last
kept point by more than `1e-6` in x or in y. -/
noncomputable def dedupAux (prev : Pt) : List Pt → List Pt
  | [] => []
  | p :: rest =>
    if abs (p.x - prev.x) > 1/1000000 ∨ abs (p.y - prev.y) > 1/1000000 then
      p :: dedupAux p rest
    else dedupAux prev rest

/-- The duplicate-removal pass of `contourOffset`. -/
noncomputable def dedupPts : List Pt → List Pt
  | [] => []
  | p :: rest => p :: dedupAux p rest

/-- Drop the repeated last point when the contour is closed
(`|last - first| < 1e-9` in both coordinates; the JS check also requires
at least two points, implied here by `length < 3` being handled first). -/
noncomputable def closedSlice (contour : List Pt) : List Pt :=
  if 2 ≤ contour.length ∧
      abs ((contour.getLast?.getD default).x - (contour.head?.getD default).x) <
        1/1000000000 ∧
      abs ((contour.getLast?.getD default).y - (contour.head?.getD default).y) <
        1/1000000000 then
    contour.dropLast
  else contour

/-- Cyclic vertex access `pts[i % n]`. -/
noncomputable def cyc (pts : List Pt) (i : ℕ) : Pt :=
  pts.getD (i % pts.length) default

/-- One pass of the degenerate-edge cleanup loop: vertices with two short
adjacent edges are dropped, vertices with one short adjacent edge are
merged to the edge midpoint; the Bool records whether anything changed. -/
noncomputable def cleanupPass (pts : List Pt) : List Pt × Bool :=
  (List.range pts.length).foldl (fun acc i =>
    if distance2D (cyc pts i) (cyc pts (i + pts.length - 1)) < 1/1000000 ∧
        distance2D (cyc pts (i + 1)) (cyc pts i) < 1/1000000 then
      (acc.1, true)
    else if distance2D (cyc pts i) (cyc pts (i + pts.length - 1)) < 1/1000000 then
      (acc.1 ++ [⟨((cyc pts (i + pts.length - 1)).x + (cyc pts i).x) / 2,
        ((cyc pts (i + pts.length - 1)).y + (cyc pts i).y) / 2, (cyc pts i).z⟩], true)
    else if distance2D (cyc pts (i + 1)) (cyc pts i) < 1/1000000 then
      (acc.1 ++ [⟨((cyc pts i).x + (cyc pts (i + 1)).x) / 2,
        ((cyc pts i).y + (cyc pts (i + 1)).y) / 2, (cyc pts i).z⟩], true)
    else (acc.1 ++ [cyc pts i], acc.2)) ([], false)

/-- The `for (pass = 0; pass < 3; pass++)` cleanup loop: abort (`none`)
when a pass leaves fewer than 3 points, stop early when nothing changed. -/
noncomputable def cleanupLoop : ℕ → List Pt → Option (List Pt)
  | 0, pts => some pts
  | fuel + 1, pts =>
    if (cleanupPass pts).1.length < 3 then none
    else if (cleanupPass pts).2 then cleanupLoop fuel (cleanupPass pts).1
    else some (cleanupPass pts).1

/-- The parameter `t` of the miter intersection along the first offset
edge line. -/
noncomputable def miterParam (prev curr next : Pt) (sign d : ℝ) : ℝ :=
  (((curr.x + d * (sign * (-(next.y - curr.y) /
      hypot (next.x - curr.x) (next.y - curr.y)))) -
    (prev.x + d * (sign * (-(curr.y - prev.y) /
      hypot (curr.x - prev.x) (curr.y - prev.y))))) * (next.y - curr.y) -
   ((curr.y + d * (sign * ((next.x - curr.x) /
      hypot (next.x - curr.x) (next.y - curr.y)))) -
    (prev.y + d * (sign * ((curr.x - prev.x) /
      hypot (curr.x - prev.x) (curr.y - prev.y))))) * (next.x - curr.x)) /
  ((curr.x - prev.x) * (next.y - curr.y) - (curr.y - prev.y) * (next.x - curr.x))

/-- The miter construction for one vertex with nondegenerate edges. -/
noncomputable def miterPoint (prev curr next : Pt) (sign d z0 : ℝ) : Pt :=
  if abs ((curr.x - prev.x) * (next.y - curr.y) -
      (curr.y - prev.y) * (next.x - curr.x)) < 1/100000000000000 then
    ⟨((prev.x + d * (sign * (-(curr.y - prev.y) /
        hypot (curr.x - prev.x) (curr.y - prev.y)))) +
      (curr.x + d * (sign * (-(next.y - curr.y) /
        hypot (next.x - curr.x) (next.y - curr.y))))) / 2,
      ((prev.y + d * (sign * ((curr.x - prev.x) /
        hypot (curr.x - prev.x) (curr.y - prev.y)))) +
      (curr.y + d * (sign * ((next.x - curr.x) /
        hypot (next.x - curr.x) (next.y - curr.y))))) / 2, z0⟩
  else
    ⟨(prev.x + d * (sign * (-(curr.y - prev.y) /
        hypot (curr.x - prev.x) (curr.y - prev.y)))) +
      miterParam prev curr next sign d * (curr.x - prev.x),
      (prev.y + d * (sign * ((curr.x - prev.x) /
        hypot (curr.x - prev.x) (curr.y - prev.y)))) +
      miterParam prev curr next sign d * (curr.y - prev.y), z0⟩

/-- The offset position of vertex `i`: miter intersection of the two
neighboring offset edge lines (midpoint of the two offset points when the
edges are parallel, `|cross| < 1e-14`); `none` when an adjacent edge is
shorter than `1e-6`. -/
noncomputable def offsetVertex (pts : List Pt) (sign d z0 : ℝ) (i : ℕ) : Option Pt :=
  if distance2D (cyc pts i) (cyc pts (i + pts.length - 1)) < 1/1000000 ∨
      distance2D (cyc pts (i + 1)) (cyc pts i) < 1/1000000 then none
  else some (miterPoint (cyc pts (i + pts.length - 1)) (cyc pts i)
    (cyc pts (i + 1)) sign d z0)

/-- All offset vertices (in order); `none` as soon as one vertex fails. -/
noncomputable def offsetVertsAux (pts : List Pt) (sign d z0 : ℝ) :
    List ℕ → Option (List Pt)
  | [] => some []
  | i :: rest =>
    match offsetVertex pts sign d z0 i, offsetVertsAux pts sign d z0 rest with
    | some p, some l => some (p :: l)
    | _, _ => none

noncomputable def offsetVerts (pts : List Pt) (sign d z0 : ℝ) : Option (List Pt) :=
  offsetVertsAux pts sign d z0 (List.range pts.length)

/-- `sign = area2 >= 0 ? 1 : -1`. -/
noncomputable def windingSign (pts : List Pt) : ℝ :=
  if 0 ≤ polygonSignedArea2 pts then 1 else -1

/--
`contourOffset(contour, distance)` from `main.js`, with each `return null`
mapped to its `OffsetFail` reason.  A successful offset closes the result
by repeating the first point (with `z = z0`).
-/
noncomputable def contourOffset (contour : List Pt) (distance : ℝ) :
    Except OffsetFail (List Pt) :=
  if contour.length < 3 then .error .tooShort
  else if distance = 0 then .ok (contour.map (fun p => ⟨p.x, p.y, p.z⟩))
  else if (dedupPts (closedSlice contour)).length < 3 then .error .tooFewAfterDedup
  else
    match cleanupLoop 3 (dedupPts (closedSlice contour)) with
    | none => .error .collapsedInCleanup
    | some pts2 =>
      match offsetVerts pts2 (windingSign pts2) distance ((pts2.head?.getD default).z) with
      | none => .error .zeroEdge
      | some result =>
        if result.length < 3 then .error .tooFewResult
        else if abs (polygonSignedArea2 result) < 1/1000000 then .error .areaTooSmall
        else if polygonSignedArea2 result * polygonSignedArea2 pts2 < 0 then
          .error .windingFlipped
        else .ok (result ++ [⟨(result.head?.getD default).x,
          (result.head?.getD default).y, (pts2.head?.getD default).z⟩])

/-- offset of the CCW unit square by +1/4: the EXPANDED square. -/
noncomputable def bigSqCCW : List Pt :=
  [⟨-(1/4), -(1/4), 0⟩, ⟨5/4, -(1/4), 0⟩, ⟨5/4, 5/4, 0⟩, ⟨-(1/4), 5/4, 0⟩]

/-- The clockwise unit square (mathematical orientation, y up). -/
noncomputable def unitSquareCW : List Pt := [⟨0, 0, 0⟩, ⟨0, 1, 0⟩, ⟨1, 1, 0⟩, ⟨1, 0, 0⟩]

/-- offset of the CW unit square by +1/4: also the EXPANDED square. -/
noncomputable def bigSqCW : List Pt :=
  [⟨-(1/4), -(1/4), 0⟩, ⟨-(1/4), 5/4, 0⟩, ⟨5/4, 5/4, 0⟩, ⟨5/4, -(1/4), 0⟩]

/-- Concrete 4 mm square path used by the C8 witness. -/
def tabSquarePath : List Pt := [⟨0, 0, 0⟩, ⟨4, 0, 0⟩, ⟨4, 4, 0⟩, ⟨0, 4, 0⟩]

/-! ### Arc fitting (`circleFromThreePoints`, `fitArcsToPoints`,
`replaceCutRunsWithArcs`) -/

/-- A segment produced by `fitArcsToPoints`: a line move or an arc move
(`i`/`j` = center offset from the arc start, `cw` = clockwise flag). -/
inductive FitSeg where
  | line (x y z : ℝ)
  | arc (x y z i j : ℝ) (cw : Bool)

/-- `2 * (x1*(y2-y3) + x2*(y3-y1) + x3*(y1-y2))`, the circumcircle
denominator of `circleFromThreePoints`. -/
noncomputable def circleDenom (p1 p2 p3 : Pt) : ℝ :=
  2 * (p1.x * (p2.y - p3.y) + p2.x * (p3.y - p1.y) + p3.x * (p1.y - p2.y))

/-- Circumcenter x coordinate. -/
noncomputable def circleCx (p1 p2 p3 : Pt) : ℝ :=
  ((p1.x ^ 2 + p1.y ^ 2) * (p2.y - p3.y) + (p2.x ^ 2 + p2.y ^ 2) * (p3.y - p1.y) +
    (p3.x ^ 2 + p3.y ^ 2) * (p1.y - p2.y)) / circleDenom p1 p2 p3

/-- Circumcenter y coordinate. -/
noncomputable def circleCy (p1 p2 p3 : Pt) : ℝ :=
  ((p1.x ^ 2 + p1.y ^ 2) * (p3.x - p2.x) + (p2.x ^ 2 + p2.y ^ 2) * (p1.x - p3.x) +
    (p3.x ^ 2 + p3.y ^ 2) * (p2.x - p1.x)) / circleDenom p1 p2 p3

/-- `circleFromThreePoints` from `main.js`: `none` when the three points are
(near-)collinear (`|d| < 1e-10`), otherwise `(cx, cy, r)`. -/
noncomputable def circleFromThreePoints (p1 p2 p3 : Pt) : Option (ℝ × ℝ × ℝ) :=
  if abs (circleDenom p1 p2 p3) < 1/10000000000 then none
  else some (circleCx p1 p2 p3, circleCy p1 p2 p3,
    hypot (p1.x - circleCx p1 p2 p3) (p1.y - circleCy p1 p2 p3))

/-- `pointToCircleDeviation` from `main.js`. -/
noncomputable def pointToCircleDeviation (px py cx cy r : ℝ) : ℝ :=
  abs (hypot (px - cx) (py - cy) - r)

/-- The candidate arc's start point `points[i]`. -/
noncomputable def arcP0 (points : List Pt) (i : ℕ) : Pt := points.getD i default

/-- The candidate arc's probe point `points[(i + j) / 2]` (JS
`Math.floor((i + j) / 2)`). -/
noncomputable def arcMid (points : List Pt) (i j : ℕ) : Pt :=
  points.getD ((i + j) / 2) default

/-- The candidate arc's end point `points[j - 1]`. -/
noncomputable def arcEnd (points : List Pt) (j : ℕ) : Pt :=
  points.getD (j - 1) default

/-- The circumcircle of `(p0, pMid, pEnd)` for the run `[i..j)` exists
(denominator not below `1e-10`). -/
noncomputable def fitDenomOk (points : List Pt) (i j : ℕ) : Prop :=
  ¬ abs (circleDenom (arcP0 points i) (arcMid points i j) (arcEnd points j)) <
    1/10000000000

/-- Circumcircle center x for the run `[i..j)`. -/
noncomputable def fitCx (points : List Pt) (i j : ℕ) : ℝ :=
  circleCx (arcP0 points i) (arcMid points i j) (arcEnd points j)

/-- Circumcircle center y for the run `[i..j)`. -/
noncomputable def fitCy (points : List Pt) (i j : ℕ) : ℝ :=
  circleCy (arcP0 points i) (arcMid points i j) (arcEnd points j)

/-- Circumcircle radius for the run `[i..j)`. -/
noncomputable def fitR (points : List Pt) (i j : ℕ) : ℝ :=
  hypot ((arcP0 points i).x - fitCx points i j) ((arcP0 points i).y - fitCy points i j)

/-- The chord cross product deciding the clockwise flag of the fitted arc. -/
noncomputable def arcCross (points : List Pt) (i j : ℕ) : ℝ :=
  ((arcP0 points i).x - fitCx points i j) * ((arcEnd points j).y - fitCy points i j) -
  ((arcP0 points i).y - fitCy points i j) * ((arcEnd points j).x - fitCx points i j)

/-- Candidate end index `j` is acceptable: the circumcircle of start,
midpoint and end exists, and every intermediate point `k ∈ [i+1, j-2]`
deviates from it by at most the 0.03 mm tolerance. -/
noncomputable def arcOk (points : List Pt) (i j : ℕ) : Prop :=
  fitDenomOk points i j ∧
  ∀ k ∈ List.range (j - 1), i + 1 ≤ k →
    pointToCircleDeviation (points.getD k default).x (points.getD k default).y
      (fitCx points i j) (fitCy points i j) (fitR points i j) ≤ 3/100

noncomputable instance fitDenomOkDec (points : List Pt) (i j : ℕ) :
    Decidable (fitDenomOk points i j) := by
  unfold fitDenomOk
  infer_instance

noncomputable instance arcOkDec (points : List Pt) (i j : ℕ) :
    Decidable (arcOk points i j) := by
  unfold arcOk
  infer_instance

/-- The `for (j = i + 3; j <= points.length; j++)` greedy extension loop:
try candidate `bestJ + 1` while it stays in range and fits. -/
noncomputable def extendBestJ (points : List Pt) (i : ℕ) : ℕ → ℕ → ℕ
  | 0, bestJ => bestJ
  | fuel + 1, bestJ =>
    if bestJ + 1 ≤ points.length ∧ arcOk points i (bestJ + 1) then
      extendBestJ points i fuel (bestJ + 1)
    else bestJ

/-- The final `bestJ` for a fit starting at `i` (initial value `i + 2`). -/
noncomputable def bestJFor (points : List Pt) (i : ℕ) : ℕ :=
  extendBestJ points i (points.length + 1) (i + 2)

/-- The `while (i < points.length)` loop body of `fitArcsToPoints`
(fuel-based; `z` is the run's first z, stamped on every emitted arc). -/
noncomputable def fitArcsAux (points : List Pt) (z : ℝ) : ℕ → ℕ → List FitSeg
  | 0, _ => []
  | fuel + 1, i =>
    if points.length ≤ i then []
    else if points.length - 2 ≤ i then
      .line (arcP0 points i).x (arcP0 points i).y (arcP0 points i).z ::
        fitArcsAux points z fuel (i + 1)
    else if i + 2 < bestJFor points i ∧ fitDenomOk points i (bestJFor points i) then
      .arc (arcEnd points (bestJFor points i)).x (arcEnd points (bestJFor points i)).y z
        (fitCx points i (bestJFor points i) - (arcP0 points i).x)
        (fitCy points i (bestJFor points i) - (arcP0 points i).y)
        (decide (arcCross points i (bestJFor points i) < 0)) ::
        fitArcsAux points z fuel (bestJFor points i)
    else
      .line (arcP0 points i).x (arcP0 points i).y (arcP0 points i).z ::
        fitArcsAux points z fuel (i + 1)

/-- `fitArcsToPoints` from `main.js`: fewer than 3 points pass through as
line segments; otherwise the greedy arc fitter runs with `z = points[0].z`. -/
noncomputable def fitArcsToPoints (points : List Pt) : List FitSeg :=
  if points.length < 3 then points.map (fun p => .line p.x p.y p.z)
  else fitArcsAux points ((points.head?.getD default).z) (points.length + 1) 0

/-- `m.type === "cut"`. -/
def isCutMove (m : Move) : Bool :=
  match m.kind with
  | .cut => true
  | _ => false

/-- The `{x, y, z}` copy of a move pushed into `cutRun`. -/
def moveToPt (m : Move) : Pt := ⟨m.x, m.y, m.z⟩

/-- Mapping a fitted segment back to a toolpath move. -/
def segToMove : FitSeg → Move
  | .line x y z => ⟨x, y, z, .cut⟩
  | .arc x y z ci cj cw => ⟨x, y, z, .arc ci cj cw⟩

/-- The `while (i < moves.length)` loop of `replaceCutRunsWithArcs`:
non-cut moves pass through; a maximal run of consecutive cut moves is
replaced by its arc fit. -/
noncomputable def replaceAux : ℕ → List Move → List Move
  | 0, _ => []
  | _ + 1, [] => []
  | fuel + 1, m :: rest =>
    match m.kind with
    | .cut =>
      (fitArcsToPoints (((m :: rest).takeWhile isCutMove).map moveToPt)).map segToMove ++
        replaceAux fuel ((m :: rest).dropWhile isCutMove)
    | _ => m :: replaceAux fuel rest

/-- `replaceCutRunsWithArcs` from `main.js`. -/
noncomputable def replaceCutRunsWithArcs (moves : List Move) : List Move :=
  replaceAux (moves.length + 1) moves

/-- A descending (helical) run of consecutive cut points on the unit
circle: quarter turns stepping down 1 mm each. -/
noncomputable def helixPts : List Pt :=
  [⟨1, 0, 0⟩, ⟨0, 1, -1⟩, ⟨-1, 0, -2⟩, ⟨0, -1, -3⟩]

/-- The same run as toolpath moves. -/
noncomputable def helixRun : List Move :=
  [⟨1, 0, 0, .cut⟩, ⟨0, 1, -1, .cut⟩, ⟨-1, 0, -2, .cut⟩, ⟨0, -1, -3, .cut⟩]

/-! ### Theorems -/

theorem jsRound_mono {α : Type} [LinearOrderedField α] [FloorRing α]
    {a b : α} (h : a ≤ b) : jsRound a ≤ jsRound b := by
  unfold jsRound
  exact Int.floor_mono (by linarith)

theorem jsRound_nonneg {α : Type} [LinearOrderedField α] [FloorRing α]
    {a : α} (h : 0 ≤ a) : 0 ≤ jsRound a := by
  have h0 : ((0 : ℤ) : α) ≤ a + 1/2 := by push_cast; linarith
  exact Int.le_floor.mpr h0

theorem jsRound_eq {α : Type} [LinearOrderedField α] [FloorRing α]
    (v : α) (k : ℤ) (h1 : (k : α) ≤ v + 1/2) (h2 : v + 1/2 < (k : α) + 1) :
    jsRound v = k := by
  unfold jsRound
  rw [Int.floor_eq_iff]
  exact ⟨h1, by linarith⟩

theorem round1_eq {α : Type} [LinearOrderedField α] [FloorRing α]
    (v : α) (k : ℤ) (h1 : (k : α) ≤ v * 10 + 1/2) (h2 : v * 10 + 1/2 < (k : α) + 1) :
    round1 v = (k : α) / 10 := by
  unfold round1
  rw [jsRound_eq (v * 10) k h1 h2]

/-- Every entry of `computeDepthLevels` is `-round1((i+1) * layerHeight)`. -/
theorem computeDepthLevels_get {α : Type} [LinearOrderedField α] [FloorRing α]
    (totalDepth stepdown : α) (hd : 0 < totalDepth)
    (i : ℕ)
    (hi : i < (computeDepthLevels totalDepth stepdown).length) :
    (computeDepthLevels totalDepth stepdown).get ⟨i, hi⟩ =
      -(round1 (((i : α) + 1) * layerHeightFor totalDepth stepdown)) := by
  unfold computeDepthLevels at hi ⊢
  simp only [List.get_eq_getElem, List.getElem_map, List.getElem_range]
  set n : ℕ := numLayersFor totalDepth stepdown with hn
  have hn1 : 1 ≤ n := le_max_left _ _
  have hnpos : (0 : α) < (n : α) := by
    exact_mod_cast Nat.lt_of_lt_of_le Nat.zero_lt_one hn1
  have hheight : (0 : α) ≤ layerHeightFor totalDepth stepdown := by
    unfold layerHeightFor
    rw [← hn]
    exact le_of_lt (div_pos hd hnpos)
  by_cases hlast : i + 1 = n
  · rw [if_pos hlast]
    have hcast : ((i : α) + 1) = (n : α) := by exact_mod_cast hlast
    have hmul : ((i : α) + 1) * layerHeightFor totalDepth stepdown = totalDepth := by
      rw [hcast]
      unfold layerHeightFor
      rw [← hn]
      field_simp
    rw [hmul, abs_neg, abs_of_pos hd]
  · rw [if_neg hlast]
    have hx : (0 : α) ≤ ((i : α) + 1) * layerHeightFor totalDepth stepdown := by
      apply mul_nonneg _ hheight
      positivity
    rw [abs_neg, abs_of_nonneg hx]

/--
C1 (amended): for positive `totalDepth`, `stepdown` with
`stepdown ≤ totalDepth`, `computeDepthLevels` returns exactly
`⌈totalDepth/stepdown⌉` values, each a nonpositive integer multiple of
0.1 mm, the sequence is nonincreasing, and the last value equals
`-totalDepth` rounded to the nearest 0.1 mm (halves up) — not, in
general, `-totalDepth` exactly, and the sequence need not be strictly
decreasing.
-/
theorem computeDepthLevels_spec (totalDepth stepdown : ℚ)
    (hd : 0 < totalDepth) (hs : 0 < stepdown) (hsd : stepdown ≤ totalDepth) :
    ((computeDepthLevels totalDepth stepdown).length : ℤ) =
        ⌈totalDepth / stepdown⌉ ∧
    (∀ d ∈ computeDepthLevels totalDepth stepdown,
        d ≤ 0 ∧ ∃ k : ℤ, d = (k : ℚ) / 10) ∧
    (computeDepthLevels totalDepth stepdown).Chain' (· ≥ ·) ∧
    (computeDepthLevels totalDepth stepdown).getLast? =
        some (-(round1 totalDepth)) := by
  have hq : (1 : ℚ) ≤ totalDepth / stepdown := (one_le_div hs).mpr hsd
  have hceil : (1 : ℤ) ≤ ⌈totalDepth / stepdown⌉ := by
    calc (1 : ℤ) = ⌈(1 : ℚ)⌉ := by simp
    _ ≤ ⌈totalDepth / stepdown⌉ := Int.ceil_mono hq
  set n : ℕ := numLayersFor totalDepth stepdown with hn
  have hmax : n = ⌈totalDepth / stepdown⌉.toNat := by
    rw [hn]
    unfold numLayersFor
    omega
  have hn1 : 1 ≤ n := le_max_left _ _
  have hnpos : (0 : ℚ) < (n : ℚ) := by
    exact_mod_cast Nat.lt_of_lt_of_le Nat.zero_lt_one hn1
  have hlen : (computeDepthLevels totalDepth stepdown).length = n := by
    unfold computeDepthLevels
    simp [hn]
  have hheight : (0 : ℚ) ≤ layerHeightFor totalDepth stepdown := by
    unfold layerHeightFor
    rw [← hn]
    exact le_of_lt (div_pos hd hnpos)
  refine ⟨?_, ?_, ?_, ?_⟩
  · rw [hlen]
    omega
  · intro d hdmem
    obtain ⟨⟨i, hi⟩, hget⟩ := List.mem_iff_get.mp hdmem
    rw [computeDepthLevels_get totalDepth stepdown hd i hi] at hget
    constructor
    · rw [← hget]
      simp only [neg_nonpos, round1]
      apply div_nonneg _ (by norm_num)
      have h0 : (0 : ℤ) ≤
          jsRound ((((i : ℚ) + 1) * layerHeightFor totalDepth stepdown) * 10) := by
        apply jsRound_nonneg
        apply mul_nonneg _ (by norm_num)
        apply mul_nonneg _ hheight
        positivity
      exact_mod_cast h0
    · refine ⟨-(jsRound ((((i : ℚ) + 1) * layerHeightFor totalDepth stepdown) * 10)), ?_⟩
      rw [← hget]
      simp only [round1]
      push_cast
      ring
  · rw [List.chain'_iff_get]
    intro i hi
    rw [hlen] at hi
    have hi1 : i < (computeDepthLevels totalDepth stepdown).length := by omega
    have hi2 : i + 1 < (computeDepthLevels totalDepth stepdown).length := by omega
    rw [computeDepthLevels_get totalDepth stepdown hd i hi1,
        computeDepthLevels_get totalDepth stepdown hd (i + 1) hi2]
    simp only [ge_iff_le, neg_le_neg_iff, round1]
    apply div_le_div_of_nonneg_right _ (by norm_num)
    have harg : (((i : ℚ) + 1) * layerHeightFor totalDepth stepdown) * 10 ≤
        ((((i : ℚ) + 1) + 1) * layerHeightFor totalDepth stepdown) * 10 := by
      have hstep : ((i : ℚ) + 1) * layerHeightFor totalDepth stepdown ≤
          (((i : ℚ) + 1) + 1) * layerHeightFor totalDepth stepdown := by
        apply mul_le_mul_of_nonneg_right _ hheight
        linarith
      linarith
    have hmono := jsRound_mono harg
    have hres : ((jsRound ((((i : ℚ) + 1) * layerHeightFor totalDepth stepdown) * 10) : ℚ)) ≤
        ((jsRound (((((i : ℚ) + 1) + 1) * layerHeightFor totalDepth stepdown) * 10) : ℚ)) := by
      exact_mod_cast hmono
    have hcast2 : (((i : ℕ) + 1 : ℕ) : ℚ) = ((i : ℚ) + 1) := by push_cast; ring
    rw [hcast2]
    exact hres
  · have hne : computeDepthLevels totalDepth stepdown ≠ [] := by
      intro hcon
      rw [hcon] at hlen
      simp at hlen
      omega
    rw [List.getLast?_eq_getLast _ hne, List.getLast_eq_get]
    have hidx : (computeDepthLevels totalDepth stepdown).length - 1 <
        (computeDepthLevels totalDepth stepdown).length := by
      rw [hlen]; omega
    rw [computeDepthLevels_get totalDepth stepdown hd _ hidx]
    have hcast : (((computeDepthLevels totalDepth stepdown).length - 1 : ℕ) : ℚ) + 1
        = (n : ℚ) := by
      rw [hlen, Nat.cast_sub hn1]
      push_cast
      ring
    rw [hcast]
    have hfull : (n : ℚ) * layerHeightFor totalDepth stepdown = totalDepth := by
      unfold layerHeightFor
      rw [← hn]
      field_simp
    rw [hfull]

/-- Concrete evaluation for the C1 witness. -/
theorem computeDepthLevels_five : computeDepthLevels (5 : ℚ) (5/2) = [-(5/2), -5] := by
  have hmax : numLayersFor (5 : ℚ) (5/2) = 2 := by
    unfold numLayersFor
    rw [show ((5 : ℚ) / (5/2)) = 2 by norm_num]
    rw [show ⌈(2 : ℚ)⌉ = 2 by norm_num]
    rfl
  have hlh : layerHeightFor (5 : ℚ) (5/2) = 5/2 := by
    unfold layerHeightFor
    rw [hmax]
    norm_num
  unfold computeDepthLevels
  rw [hmax, hlh]
  rw [show List.range 2 = [0, 1] from rfl]
  simp only [List.map_cons, List.map_nil]
  rw [if_neg (by norm_num : ¬((0 : ℕ) + 1 = 2))]
  simp only [if_true]
  rw [round1_eq (abs (-((((0 : ℕ) : ℚ) + 1) * (5/2)))) 25
    (by norm_num [abs_of_nonneg]) (by norm_num [abs_of_nonneg])]
  rw [round1_eq (abs (-(5 : ℚ))) 50
    (by norm_num [abs_of_nonneg]) (by norm_num [abs_of_nonneg])]
  norm_num

/-- Concrete evaluation for the C1 counterexample. -/
theorem computeDepthLevels_cex_eval :
    computeDepthLevels (3/20 : ℚ) (1/25) = [0, -(1/10), -(1/10), -(1/5)] := by
  have hmax : numLayersFor (3/20 : ℚ) (1/25) = 4 := by
    unfold numLayersFor
    rw [show ((3/20 : ℚ) / (1/25)) = 15/4 by norm_num]
    rw [show ⌈(15/4 : ℚ)⌉ = 4 by rw [Int.ceil_eq_iff]; norm_num]
    rfl
  have hlh : layerHeightFor (3/20 : ℚ) (1/25) = 3/80 := by
    unfold layerHeightFor
    rw [hmax]
    norm_num
  unfold computeDepthLevels
  rw [hmax, hlh]
  rw [show List.range 4 = [0, 1, 2, 3] from rfl]
  simp only [List.map_cons, List.map_nil]
  rw [if_neg (by norm_num : ¬((0 : ℕ) + 1 = 4)), if_neg (by norm_num : ¬((1 : ℕ) + 1 = 4)),
      if_neg (by norm_num : ¬((2 : ℕ) + 1 = 4))]
  simp only [if_true]
  rw [round1_eq (abs (-((((0 : ℕ) : ℚ) + 1) * (3/80)))) 0
    (by norm_num [abs_of_nonneg]) (by norm_num [abs_of_nonneg])]
  rw [round1_eq (abs (-((((1 : ℕ) : ℚ) + 1) * (3/80)))) 1
    (by norm_num [abs_of_nonneg]) (by norm_num [abs_of_nonneg])]
  rw [round1_eq (abs (-((((2 : ℕ) : ℚ) + 1) * (3/80)))) 1
    (by norm_num [abs_of_nonneg]) (by norm_num [abs_of_nonneg])]
  rw [round1_eq (abs (-(3/20 : ℚ))) 2
    (by norm_num [abs_of_nonneg]) (by norm_num [abs_of_nonneg])]
  norm_num

/--
Witness for C1 at the spec's own example: totalDepth = 5, stepdown = 2.5
gives exactly the levels `[-2.5, -5]`.
-/
theorem computeDepthLevels_spec_witness :
    (0 : ℚ) < 5 ∧ (0 : ℚ) < 5/2 ∧ (5/2 : ℚ) ≤ 5 ∧
    computeDepthLevels (5 : ℚ) (5/2) = [-(5/2), -5] ∧
    (((computeDepthLevels (5 : ℚ) (5/2)).length : ℤ) = ⌈(5 : ℚ) / (5/2)⌉ ∧
      (∀ d ∈ computeDepthLevels (5 : ℚ) (5/2),
          d ≤ 0 ∧ ∃ k : ℤ, d = (k : ℚ) / 10) ∧
      (computeDepthLevels (5 : ℚ) (5/2)).Chain' (· ≥ ·) ∧
      (computeDepthLevels (5 : ℚ) (5/2)).getLast? = some (-(round1 5))) :=
  ⟨by norm_num, by norm_num, by norm_num, computeDepthLevels_five,
    computeDepthLevels_spec 5 (5/2) (by norm_num) (by norm_num) (by norm_num)⟩

/--
Counterexample for C1 as stated: totalDepth = 0.15, stepdown = 0.04
satisfies the claim's hypotheses, yet `computeDepthLevels` returns
`[0, -0.1, -0.1, -0.2]`: the first value is not negative, the sequence
is not strictly decreasing, and the last value is `-0.2 ≠ -0.15`.
-/
theorem computeDepthLevels_cex :
    (0 : ℚ) < 3/20 ∧ (0 : ℚ) < 1/25 ∧ (1/25 : ℚ) ≤ 3/20 ∧
    computeDepthLevels (3/20 : ℚ) (1/25) = [0, -(1/10), -(1/10), -(1/5)] ∧
    ¬ (computeDepthLevels (3/20 : ℚ) (1/25)).Chain' (· > ·) ∧
    (computeDepthLevels (3/20 : ℚ) (1/25)).getLast? ≠ some (-(3/20)) ∧
    ¬ (∀ d ∈ computeDepthLevels (3/20 : ℚ) (1/25), d < 0) := by
  refine ⟨by norm_num, by norm_num, by norm_num, computeDepthLevels_cex_eval, ?_, ?_, ?_⟩
  · rw [computeDepthLevels_cex_eval]
    intro hchain
    have hpair := List.chain'_iff_get.mp hchain 1 (by norm_num)
    norm_num at hpair
  · rw [computeDepthLevels_cex_eval]
    intro hcon
    rw [List.getLast?_eq_getLast _ (by simp)] at hcon
    norm_num [List.getLast] at hcon
  · intro hall
    have h0 := hall 0 (by rw [computeDepthLevels_cex_eval]; exact List.mem_cons_self _ _)
    norm_num at h0

theorem hypot_nonneg (dx dy : ℝ) : 0 ≤ hypot dx dy := Real.sqrt_nonneg _

theorem hypot_eq (dx dy c : ℝ) (hc : 0 ≤ c) (h : dx ^ 2 + dy ^ 2 = c ^ 2) :
    hypot dx dy = c := by
  unfold hypot
  rw [h]
  exact Real.sqrt_sq hc

theorem sum_range_cycle (n : ℕ) (f : ℕ → ℝ) :
    ∑ i in Finset.range n, f ((i + 1) % n) = ∑ i in Finset.range n, f i := by
  rcases Nat.eq_zero_or_pos n with h | h
  · simp [h]
  · obtain ⟨m, rfl⟩ : ∃ m, n = m + 1 := ⟨n - 1, by omega⟩
    rw [Finset.sum_range_succ, Finset.sum_range_succ']
    rw [Nat.mod_self]
    congr 1
    apply Finset.sum_congr rfl
    intro i hi
    simp only [Finset.mem_range] at hi
    rw [Nat.mod_eq_of_lt (by omega)]

/-- `polygonSignedArea2` is the NEGATIVE of the standard shoelace value. -/
theorem polygonSignedArea2_eq_neg (pts : List Pt) :
    polygonSignedArea2 pts = -(signedAreaDouble pts) := by
  unfold polygonSignedArea2 signedAreaDouble
  by_cases hlen : pts.length < 3
  · simp [hlen]
  · rw [if_neg hlen, if_neg hlen]
    have hsplit : ∑ i in Finset.range pts.length,
        (ptX pts ((i + 1) % pts.length) - ptX pts i) *
          (ptY pts ((i + 1) % pts.length) + ptY pts i) =
        (∑ i in Finset.range pts.length,
          (ptX pts ((i + 1) % pts.length) * ptY pts ((i + 1) % pts.length) -
            ptX pts i * ptY pts i)) +
        ∑ i in Finset.range pts.length,
          -(ptX pts i * ptY pts ((i + 1) % pts.length) -
            ptX pts ((i + 1) % pts.length) * ptY pts i) := by
      rw [← Finset.sum_add_distrib]
      apply Finset.sum_congr rfl
      intro i _
      ring
    rw [hsplit, Finset.sum_sub_distrib,
      sum_range_cycle pts.length (fun i => ptX pts i * ptY pts i), sub_self, zero_add]
    rw [Finset.sum_neg_distrib]

/--
C4 (code bug): `polygonSignedArea2` returns MINUS twice the signed area,
so it is positive exactly for clockwise vertex order, contradicting its
own documentation ("positive = CCW") and the spec.  On the
counter-clockwise unit square (signed area `+1`, so twice the signed
area is `+2`) it returns `-2`.
-/
theorem polygonSignedArea2_bug :
    (∀ pts : List Pt, polygonSignedArea2 pts = -(signedAreaDouble pts)) ∧
    polygonSignedArea2 unitSquareCCW = -2 ∧
    signedAreaDouble unitSquareCCW = 2 := by
  refine ⟨polygonSignedArea2_eq_neg, ?_, ?_⟩
  · unfold polygonSignedArea2 unitSquareCCW
    norm_num [Finset.sum_range_succ, ptX, ptY, List.getD]
  · unfold signedAreaDouble unitSquareCCW
    norm_num [Finset.sum_range_succ, ptX, ptY, List.getD]

/--
C10: `applyOriginTransform` applies one uniform translation: a single
`(shiftX, shiftY)` pair (a function of the bounding box, origin choice,
operation and tool radius alone) and a single Z shift (`totalDepth` iff
`zOrigin` is stock-bottom, plus `zOffset`) are added to every move, the
move kinds are unchanged, and hence all pairwise coordinate differences
are preserved.
-/
theorem applyOriginTransform_translation (moves : List Move)
    (p : OriginParams) (totalDepth r : ℝ) (op : OperationType)
    (ct : ContourSide) (fb : Option (ℝ × ℝ)) :
    (applyOriginTransform moves p totalDepth r op ct fb).length = moves.length ∧
    (∀ i (hi : i < moves.length),
      (applyOriginTransform moves p totalDepth r op ct fb).get
          ⟨i, by simpa [applyOriginTransform] using hi⟩ =
        ⟨(moves.get ⟨i, hi⟩).x +
            (originShiftXY moves p.xyOrigin r op ct fb).1,
          (moves.get ⟨i, hi⟩).y +
            (originShiftXY moves p.xyOrigin r op ct fb).2,
          (moves.get ⟨i, hi⟩).z +
            ((if p.zOrigin = .stockBottom then totalDepth else 0) + p.zOffset),
          (moves.get ⟨i, hi⟩).kind⟩) ∧
    (∀ i j (hi : i < moves.length) (hj : j < moves.length),
      ((applyOriginTransform moves p totalDepth r op ct fb).get
          ⟨i, by simpa [applyOriginTransform] using hi⟩).x -
        ((applyOriginTransform moves p totalDepth r op ct fb).get
          ⟨j, by simpa [applyOriginTransform] using hj⟩).x =
        (moves.get ⟨i, hi⟩).x - (moves.get ⟨j, hj⟩).x ∧
      ((applyOriginTransform moves p totalDepth r op ct fb).get
          ⟨i, by simpa [applyOriginTransform] using hi⟩).y -
        ((applyOriginTransform moves p totalDepth r op ct fb).get
          ⟨j, by simpa [applyOriginTransform] using hj⟩).y =
        (moves.get ⟨i, hi⟩).y - (moves.get ⟨j, hj⟩).y ∧
      ((applyOriginTransform moves p totalDepth r op ct fb).get
          ⟨i, by simpa [applyOriginTransform] using hi⟩).z -
        ((applyOriginTransform moves p totalDepth r op ct fb).get
          ⟨j, by simpa [applyOriginTransform] using hj⟩).z =
        (moves.get ⟨i, hi⟩).z - (moves.get ⟨j, hj⟩).z ∧
      ((applyOriginTransform moves p totalDepth r op ct fb).get
          ⟨i, by simpa [applyOriginTransform] using hi⟩).kind =
        (moves.get ⟨i, hi⟩).kind) := by
  refine ⟨by simp [applyOriginTransform], ?_, ?_⟩
  · intro i hi
    simp [applyOriginTransform]
  · intro i j hi hj
    refine ⟨?_, ?_, ?_, ?_⟩ <;> simp [applyOriginTransform]

theorem getZForTabProfile_some (s depthZ : ℝ) (c : TabConfig) :
    getZForTabProfile s depthZ (some c) =
      if depthZ ≥ c.tabZ + 1/1000000 then depthZ
      else if 1/4 * c.tabWidth ≤ 1/1000000000 then depthZ
      else tabLoopZ s depthZ c.tabZ c.tabWidth c.ranges := rfl

theorem tabLoopZ_nil (s depthZ tabZ tabWidth : ℝ) :
    tabLoopZ s depthZ tabZ tabWidth [] = depthZ := rfl

theorem tabLoopZ_cons (s depthZ tabZ tabWidth : ℝ) (r : TabRange) (rest : List TabRange) :
    tabLoopZ s depthZ tabZ tabWidth (r :: rest) =
      if s < r.start ∨ s > r.stop then tabLoopZ s depthZ tabZ tabWidth rest
      else tabRangeZ s depthZ tabZ tabWidth r := rfl

/-- Skipping ranges that end strictly before `s`. -/
theorem tabLoopZ_skip (s depthZ tabZ tabWidth : ℝ) (l1 l2 : List TabRange)
    (h : ∀ r ∈ l1, r.stop < s) :
    tabLoopZ s depthZ tabZ tabWidth (l1 ++ l2) =
      tabLoopZ s depthZ tabZ tabWidth l2 := by
  induction l1 with
  | nil => simp
  | cons r rest ih =>
    have hr : r.stop < s := h r (List.mem_cons_self _ _)
    rw [List.cons_append, tabLoopZ_cons, if_pos (Or.inr hr)]
    exact ih (fun r' hr' => h r' (List.mem_cons_of_mem _ hr'))

/-- If `s` is outside every range, the loop returns `depthZ`. -/
theorem tabLoopZ_outside (s depthZ tabZ tabWidth : ℝ) (l : List TabRange)
    (h : ∀ r ∈ l, s < r.start ∨ r.stop < s) :
    tabLoopZ s depthZ tabZ tabWidth l = depthZ := by
  induction l with
  | nil => rfl
  | cons r rest ih =>
    rw [tabLoopZ_cons]
    rcases h r (List.mem_cons_self _ _) with hl | hr
    · rw [if_pos (Or.inl hl)]
      exact ih (fun r' hr' => h r' (List.mem_cons_of_mem _ hr'))
    · rw [if_pos (Or.inr hr)]
      exact ih (fun r' hr' => h r' (List.mem_cons_of_mem _ hr'))

theorem filterMap_eq_map_of_forall {α β : Type} (l : List α) (f : α → Option β)
    (g : α → β) (h : ∀ a ∈ l, f a = some (g a)) : l.filterMap f = l.map g := by
  induction l with
  | nil => rfl
  | cons a rest ih =>
    rw [List.filterMap_cons, h a (List.mem_cons_self _ _), List.map_cons]
    rw [ih (fun a' ha' => h a' (List.mem_cons_of_mem _ ha'))]

/-- When `0 < width < spacing`, no tab range is clipped: the built ranges
are exactly the unclipped evenly spaced ones. -/
theorem tabRangesFor_eq (lc interval width : ℝ) (hlc : 0 < lc)
    (hw : 0 < width) (hwsp : width < tabSpacing lc interval) :
    tabRangesFor lc interval width =
      (List.range (tabCount lc interval)).map
        (evenTabRange (tabSpacing lc interval) width) := by
  set n := tabCount lc interval with hn
  set sp := tabSpacing lc interval with hsp
  have hn1 : 1 ≤ n := le_max_left _ _
  have hnpos : (0 : ℝ) < (n : ℝ) := by exact_mod_cast Nat.lt_of_lt_of_le Nat.zero_lt_one hn1
  have hsppos : 0 < sp := lt_trans hw hwsp
  have hlceq : (n : ℝ) * sp = lc := by
    rw [hsp]
    unfold tabSpacing
    rw [← hn]
    field_simp
  unfold tabRangesFor
  rw [← hn, ← hsp]
  apply filterMap_eq_map_of_forall
  intro i hi
  simp only [List.mem_range] at hi
  have hik : (i : ℝ) ≤ (n : ℝ) - 1 := by
    have hcast : (i : ℝ) + 1 ≤ (n : ℝ) := by exact_mod_cast hi
    linarith
  have hlow : 0 < ((i : ℝ) + 1/2) * sp - width / 2 := by
    have h1 : (1/2 : ℝ) * sp ≤ ((i : ℝ) + 1/2) * sp := by
      apply mul_le_mul_of_nonneg_right _ (le_of_lt hsppos)
      have hge : (0 : ℝ) ≤ (i : ℝ) := Nat.cast_nonneg i
      linarith
    linarith
  have hhigh : ((i : ℝ) + 1/2) * sp + width / 2 < lc := by
    have h1 : ((i : ℝ) + 1/2) * sp ≤ ((n : ℝ) - 1/2) * sp := by
      apply mul_le_mul_of_nonneg_right _ (le_of_lt hsppos)
      linarith
    have h3 : ((n : ℝ) - 1/2) * sp = lc - sp / 2 := by
      rw [← hlceq]; ring
    linarith
  rw [max_eq_right (le_of_lt hlow), min_eq_right (le_of_lt hhigh),
    if_pos (by linarith)]
  rfl

theorem ite_or_not_left {α : Type} {p q : Prop} [Decidable (p ∨ q)] {a b : α}
    (hp : ¬p) (hq : ¬q) : (if p ∨ q then a else b) = b := by
  rw [if_neg]
  tauto

/--
C8: for a closed contour of positive closed length `lc` and parameters
`interval, width, tabHeight > 0` with `tabHeight ≤ totalDepth`,
`buildTabConfig` creates `n = max(1, round(lc / interval))` tab ranges,
evenly spaced around centers `(k + 1/2) * (lc / n)`, each exactly `width`
long (hence at most `width`), with `tabZ = -(totalDepth - tabHeight)`;
`getZForTabProfile` returns the full layer depth outside every range,
`tabZ` over the middle 50% of a tab's width, and linear ramps of constant
slope over the first and last 25%.  (Formalized for tabs that are not
clipped, `width < lc / n`, and a non-degenerate ramp, `width / 4 > 1e-9`.)
-/
theorem buildTabConfig_getZ_spec (path : List Pt)
    (interval width totalDepth tabHeight : ℝ)
    (hpl : 2 ≤ path.length) (hi : 0 < interval) (hw : 0 < width)
    (hth : 0 < tabHeight) (hthd : tabHeight ≤ totalDepth)
    (hlenpos : 0 < openPathLength path)
    (hwsp : width < tabSpacing (openPathLength path + closingLength path) interval)
    (hw4 : 1/1000000000 < width / 4) :
    ∃ cfg, buildTabConfig path interval width totalDepth tabHeight = some cfg ∧
      cfg.tabZ = -(totalDepth - tabHeight) ∧
      cfg.tabWidth = width ∧
      cfg.ranges = (List.range
          (tabCount (openPathLength path + closingLength path) interval)).map
        (evenTabRange (tabSpacing (openPathLength path + closingLength path) interval)
          width) ∧
      (cfg.ranges.length : ℤ) =
        max 1 (jsRound ((openPathLength path + closingLength path) / interval)) ∧
      (∀ r ∈ cfg.ranges, r.stop - r.start ≤ width) ∧
      (∀ s depthZ : ℝ,
        ((∀ r ∈ cfg.ranges, s < r.start ∨ r.stop < s) →
          getZForTabProfile s depthZ (some cfg) = depthZ) ∧
        (depthZ < cfg.tabZ →
          ∀ k, k < tabCount (openPathLength path + closingLength path) interval →
          ((evenTabRange (tabSpacing (openPathLength path + closingLength path) interval)
              width k).start + width / 4 ≤ s ∧
            s ≤ (evenTabRange (tabSpacing (openPathLength path + closingLength path)
              interval) width k).stop - width / 4 →
            getZForTabProfile s depthZ (some cfg) = cfg.tabZ) ∧
          ((evenTabRange (tabSpacing (openPathLength path + closingLength path) interval)
              width k).start ≤ s ∧
            s ≤ (evenTabRange (tabSpacing (openPathLength path + closingLength path)
              interval) width k).start + width / 4 →
            getZForTabProfile s depthZ (some cfg) =
              depthZ + ((s - (evenTabRange (tabSpacing
                (openPathLength path + closingLength path) interval) width k).start) /
                (width / 4)) * (cfg.tabZ - depthZ)) ∧
          ((evenTabRange (tabSpacing (openPathLength path + closingLength path) interval)
              width k).stop - width / 4 ≤ s ∧
            s ≤ (evenTabRange (tabSpacing (openPathLength path + closingLength path)
              interval) width k).stop →
            getZForTabProfile s depthZ (some cfg) =
              cfg.tabZ + ((s - ((evenTabRange (tabSpacing
                (openPathLength path + closingLength path) interval) width k).stop -
                width / 4)) / (width / 4)) * (depthZ - cfg.tabZ)))) := by
  set L := openPathLength path with hL
  set C := closingLength path with hC
  set lc := L + C with hlc
  set n : ℕ := tabCount lc interval with hn
  set sp := tabSpacing lc interval with hsp
  have hn1 : 1 ≤ n := le_max_left _ _
  have hnpos : (0 : ℝ) < (n : ℝ) := by exact_mod_cast Nat.lt_of_lt_of_le Nat.zero_lt_one hn1
  have hCnn : 0 ≤ C := by rw [hC]; unfold closingLength; exact hypot_nonneg _ _
  have hlcpos : 0 < lc := by rw [hlc]; linarith
  have hsppos : 0 < sp := lt_trans hw hwsp
  have hranges := tabRangesFor_eq lc interval width hlcpos hw hwsp
  have hguard : ¬(path.length < 2 ∨ interval ≤ 0 ∨ width ≤ 0 ∨ tabHeight ≤ 0) := by
    push_neg
    exact ⟨hpl, hi, hw, hth⟩
  have hcfg : buildTabConfig path interval width totalDepth tabHeight =
      some ⟨(List.range n).map (evenTabRange sp width), L, lc,
        -(max 0 (totalDepth - tabHeight)), width⟩ := by
    unfold buildTabConfig
    rw [if_neg hguard, if_neg (by rw [← hL]; push_neg; exact hlenpos)]
    rw [show openPathLength path + closingLength path = lc by rw [hlc, hL, hC]]
    rw [hranges, ← hn, ← hsp]
    rw [if_neg (by
      simp only [List.length_map, List.length_range]
      omega)]
  have htabZ : -(max 0 (totalDepth - tabHeight)) = -(totalDepth - tabHeight) := by
    rw [max_eq_right (by linarith)]
  refine ⟨_, hcfg, htabZ, rfl, rfl, ?_, ?_, ?_⟩
  · simp only [List.length_map, List.length_range]
    rw [hn]
    unfold tabCount
    have hjnn : 0 ≤ jsRound (lc / interval) :=
      jsRound_nonneg (le_of_lt (div_pos hlcpos hi))
    omega
  · intro r hr
    simp only [List.mem_map, List.mem_range] at hr
    obtain ⟨k, _, rfl⟩ := hr
    unfold evenTabRange
    simp only
    linarith
  · intro s depthZ
    constructor
    · intro houtside
      rw [getZForTabProfile_some]
      by_cases hcase1 : depthZ ≥ -(max 0 (totalDepth - tabHeight)) + 1/1000000
      · rw [if_pos hcase1]
      · rw [if_neg hcase1]
        by_cases hcase2 : 1/4 * width ≤ 1/1000000000
        · rw [if_pos hcase2]
        · rw [if_neg hcase2]
          exact tabLoopZ_outside _ _ _ _ _ houtside
    · intro hdeep k hk
      have hdeep' : depthZ < -(max 0 (totalDepth - tabHeight)) := by
        simpa [htabZ] using hdeep
      have hsplit : (List.range n).map (evenTabRange sp width) =
          (List.range k).map (evenTabRange sp width) ++
            evenTabRange sp width k ::
              ((List.range (n - k - 1)).map (fun j => k + 1 + j)).map
                (evenTabRange sp width) := by
        have hrange : List.range n = List.range k ++
            (List.range (n - k)).map (k + ·) := by
          rw [← List.range_add]
          congr 1
          omega
        rw [hrange, List.map_append]
        congr 1
        have hnk : n - k = (n - k - 1) + 1 := by omega
        rw [hnk, List.range_succ_eq_map]
        simp only [List.map_cons, List.map_map]
        congr 1
        apply List.map_congr_left
        intro j _
        simp only [Function.comp_apply]
        congr 1
        omega
      have hguard2 : ¬(depthZ ≥ -(max 0 (totalDepth - tabHeight)) + 1/1000000) := by
        push_neg
        linarith
      have hmemk : ∀ (hin : (evenTabRange sp width k).start ≤ s ∧
          s ≤ (evenTabRange sp width k).stop),
          getZForTabProfile s depthZ (some ⟨(List.range n).map (evenTabRange sp width),
              L, lc, -(max 0 (totalDepth - tabHeight)), width⟩) =
            tabRangeZ s depthZ (-(max 0 (totalDepth - tabHeight))) width
              (evenTabRange sp width k) := by
        intro hin
        rw [getZForTabProfile_some]
        rw [if_neg hguard2, if_neg (by push_neg; linarith)]
        simp only
        rw [hsplit, tabLoopZ_skip, tabLoopZ_cons,
          ite_or_not_left (by push_neg; exact hin.1) (by push_neg; exact hin.2)]
        intro r hr
        simp only [List.mem_map, List.mem_range] at hr
        obtain ⟨j, hj, rfl⟩ := hr
        unfold evenTabRange
        simp only
        have hks : ((j : ℝ) + 1/2) * sp + width / 2 <
            ((k : ℝ) + 1/2) * sp - width / 2 := by
          have hjk : (j : ℝ) + 1 ≤ (k : ℝ) := by exact_mod_cast hj
          have hmono : (((j : ℝ) + 1/2) + 1) * sp ≤ ((k : ℝ) + 1/2) * sp := by
            apply mul_le_mul_of_nonneg_right _ (le_of_lt hsppos)
            linarith
          nlinarith
        have hs1 : ((k : ℝ) + 1/2) * sp - width / 2 ≤ s := by
          have hin1 := hin.1
          unfold evenTabRange at hin1
          simpa using hin1
        linarith
      have hramplen : min (1/4 * width) (((evenTabRange sp width k).stop -
          (evenTabRange sp width k).start) / 2) = 1/4 * width := by
        unfold evenTabRange
        simp only
        rw [show (((k : ℝ) + 1/2) * sp + width / 2 -
            (((k : ℝ) + 1/2) * sp - width / 2)) / 2 = width / 2 by ring]
        rw [min_eq_left]
        linarith
      have hbody : tabRangeZ s depthZ (-(max 0 (totalDepth - tabHeight))) width
            (evenTabRange sp width k) =
          (if s ≤ (evenTabRange sp width k).start + 1/4 * width then
            depthZ + ((s - (evenTabRange sp width k).start) / (1/4 * width)) *
              (-(max 0 (totalDepth - tabHeight)) - depthZ)
          else if s ≥ (evenTabRange sp width k).stop - 1/4 * width then
            -(max 0 (totalDepth - tabHeight)) +
              ((s - ((evenTabRange sp width k).stop - 1/4 * width)) / (1/4 * width)) *
                (depthZ - -(max 0 (totalDepth - tabHeight)))
          else -(max 0 (totalDepth - tabHeight))) := by
        unfold tabRangeZ
        rw [hramplen]
        rw [if_neg (by push_neg; linarith)]
      have hklen : (evenTabRange sp width k).stop -
          (evenTabRange sp width k).start = width := by
        unfold evenTabRange
        simp only
        ring
      refine ⟨?_, ?_, ?_⟩
      · intro hmid
        rw [hmemk ⟨by linarith [hmid.1], by linarith [hmid.2]⟩, hbody]
        by_cases hup : s ≤ (evenTabRange sp width k).start + 1/4 * width
        · rw [if_pos hup]
          have hseq : s = (evenTabRange sp width k).start + width / 4 := by
            have hm1 := hmid.1
            linarith
          rw [hseq]
          simp only [htabZ]
          have h4 : (0 : ℝ) < width / 4 := by linarith
          have hq : ((evenTabRange sp width k).start + width / 4 -
              (evenTabRange sp width k).start) / (1/4 * width) = 1 := by
            rw [show (evenTabRange sp width k).start + width / 4 -
              (evenTabRange sp width k).start = width / 4 by ring]
            field_simp
          rw [hq]
          ring
        · rw [if_neg hup]
          by_cases hdn : s ≥ (evenTabRange sp width k).stop - 1/4 * width
          · rw [if_pos hdn]
            have hseq : s = (evenTabRange sp width k).stop - width / 4 := by
              have hm2 := hmid.2
              linarith
            rw [hseq]
            simp only [htabZ]
            have hq : ((evenTabRange sp width k).stop - width / 4 -
                ((evenTabRange sp width k).stop - 1/4 * width)) / (1/4 * width) = 0 := by
              rw [show (evenTabRange sp width k).stop - width / 4 -
                ((evenTabRange sp width k).stop - 1/4 * width) = 0 by ring]
              exact zero_div _
            rw [hq]
            ring
          · rw [if_neg hdn]
      · intro hup
        rw [hmemk ⟨hup.1, by linarith [hup.2, hklen]⟩, hbody]
        rw [if_pos (by linarith [hup.2])]
        simp only [htabZ]
        rw [show (1/4 : ℝ) * width = width / 4 by ring]
      · intro hdn
        rw [hmemk ⟨by linarith [hdn.1, hklen], hdn.2⟩, hbody]
        rw [if_neg (by push_neg; linarith [hdn.1, hklen]), if_pos (by linarith [hdn.1])]
        simp only [htabZ]
        rw [show (1/4 : ℝ) * width = width / 4 by ring]

theorem segmentsForCircleRadius_pos (radius : ℝ) :
    4 ≤ segmentsForCircleRadius radius := by
  unfold segmentsForCircleRadius
  by_cases h : radius ≤ 0
  · rw [if_pos h]
  · rw [if_neg h]
    exact le_max_left _ _

theorem circlePt_norm (R θ : ℝ) :
    (circlePt R θ).x ^ 2 + (circlePt R θ).y ^ 2 = R ^ 2 := by
  unfold circlePt
  simp only
  have h := Real.sin_sq_add_cos_sq θ
  nlinarith [h]

theorem getLast?_map_range {β : Type} (f : ℕ → β) (n : ℕ) (hn : 0 < n) :
    ((List.range n).map f).getLast? = some (f (n - 1)) := by
  obtain ⟨m, rfl⟩ : ∃ m, n = m + 1 := ⟨n - 1, by omega⟩
  rw [List.range_succ, List.map_append]
  simp

theorem getLast?_append_right {β : Type} (l1 l2 : List β) (h : l2 ≠ []) :
    (l1 ++ l2).getLast? = l2.getLast? :=
  List.getLast?_append_of_ne_nil l1 h

theorem ringClosed_norm (R : ℝ) (segments : ℕ) :
    ∀ p ∈ ringClosed R segments, p.x ^ 2 + p.y ^ 2 = R ^ 2 := by
  intro p hp
  unfold ringClosed at hp
  simp only [List.mem_map, List.mem_range] at hp
  obtain ⟨i, _, rfl⟩ := hp
  exact circlePt_norm _ _

theorem closingRing_norm (R : ℝ) (segments : ℕ) (startAngle : ℝ) :
    ∀ p ∈ closingRing R segments startAngle, p.x ^ 2 + p.y ^ 2 = R ^ 2 := by
  intro p hp
  unfold closingRing at hp
  simp only [List.mem_map, List.mem_range] at hp
  obtain ⟨i, _, rfl⟩ := hp
  exact circlePt_norm _ _

theorem spiralPart_norm_le (innerR radialSpan : ℝ) (turns steps : ℕ)
    (hinner : 0 ≤ innerR) (hspan : 0 ≤ radialSpan) (hsteps : 0 < steps) :
    ∀ p ∈ spiralPart innerR radialSpan turns steps,
      p.x ^ 2 + p.y ^ 2 ≤ (innerR + radialSpan) ^ 2 := by
  intro p hp
  unfold spiralPart at hp
  simp only [List.mem_map, List.mem_range] at hp
  obtain ⟨i, hi, rfl⟩ := hp
  rw [circlePt_norm]
  have hstepspos : (0 : ℝ) < (steps : ℝ) := by exact_mod_cast hsteps
  have hfrac1 : ((i : ℝ) + 1) / (steps : ℝ) ≤ 1 := by
    rw [div_le_one hstepspos]
    exact_mod_cast hi
  have hfrac0 : 0 ≤ ((i : ℝ) + 1) / (steps : ℝ) := by positivity
  have hR : innerR + radialSpan * (((i : ℝ) + 1) / (steps : ℝ)) ≤ innerR + radialSpan := by
    nlinarith
  have hR0 : 0 ≤ innerR + radialSpan * (((i : ℝ) + 1) / (steps : ℝ)) := by positivity
  nlinarith

theorem smallPocketPts_norm_le (outerR : ℝ) (segments : ℕ)
    (houter : 0 ≤ outerR) (hsegs : 0 < segments) :
    ∀ p ∈ smallPocketPts outerR segments, p.x ^ 2 + p.y ^ 2 ≤ outerR ^ 2 := by
  intro p hp
  unfold smallPocketPts at hp
  have hsegspos : (0 : ℝ) < (segments : ℝ) := by exact_mod_cast hsegs
  rcases List.mem_cons.mp hp with hcenter | hrest
  · rw [hcenter]
    simp only
    nlinarith
  · rcases List.mem_append.mp hrest with hspiral | hrim
    · simp only [List.mem_map, List.mem_range] at hspiral
      obtain ⟨i, hi, rfl⟩ := hspiral
      rw [circlePt_norm]
      have hfrac1 : ((i : ℝ) + 1) / (segments : ℝ) ≤ 1 := by
        rw [div_le_one hsegspos]
        exact_mod_cast hi
      have hfrac0 : 0 ≤ ((i : ℝ) + 1) / (segments : ℝ) := by positivity
      have ht2 : (((i : ℝ) + 1) / (segments : ℝ)) ^ 2 ≤ 1 := by nlinarith
      calc (((i : ℝ) + 1) / (segments : ℝ) * outerR) ^ 2
          = (((i : ℝ) + 1) / (segments : ℝ)) ^ 2 * outerR ^ 2 := by ring
      _ ≤ 1 * outerR ^ 2 := by nlinarith [sq_nonneg outerR]
      _ = outerR ^ 2 := by ring
    · simp only [List.mem_map, List.mem_range] at hrim
      obtain ⟨i, _, rfl⟩ := hrim
      rw [circlePt_norm]

theorem ringClosed_head (R : ℝ) (segments : ℕ) :
    (ringClosed R segments).head? = some ⟨R, 0, 0⟩ := by
  unfold ringClosed
  rw [List.range_succ_eq_map, List.map_cons]
  simp only [List.head?_cons, Nat.cast_zero, zero_div, zero_mul]
  unfold circlePt
  rw [Real.cos_zero, Real.sin_zero, mul_one, mul_zero]

theorem ringClosed_ne_nil (R : ℝ) (segments : ℕ) : ringClosed R segments ≠ [] := by
  unfold ringClosed
  simp only [ne_eq, List.map_eq_nil_iff, List.range_eq_nil]
  omega

theorem closingRing_ne_nil (R : ℝ) (segments : ℕ) (hsegs : 0 < segments)
    (startAngle : ℝ) : closingRing R segments startAngle ≠ [] := by
  unfold closingRing
  simp only [ne_eq, List.map_eq_nil_iff, List.range_eq_nil]
  omega

/--
C6 (amended): for `D/2 - r > 0` the path of `generateSpiralPocketCircle`
stays within radius `D/2 - r` of the center, and its last point (the end
of the closing outer ring) lies at radius exactly `D/2 - r`; when
moreover `r ≤ D/2 - r` AND the radial span exceeds the `1e-9` guard
(`D/2 - 2r > 1e-9` — NOT merely `D/2 - r > r` as claimed), the path is
inner ring + connecting spiral + closing ring, the spiral sweeps
`max(1, ceil((D/2 - 2r)/stepover))` full turns, the path starts at
radius `r` (point `(r, 0)`), the inner ring lies at radius `r`, and the
closing ring lies at radius exactly `D/2 - r`.
-/
theorem generateSpiralPocketCircle_spec (D s r : ℝ) (hr : 0 < r) (hs : 0 < s)
    (houter : 0 < D / 2 - r) :
    (∀ p ∈ generateSpiralPocketCircle D s r,
      p.x ^ 2 + p.y ^ 2 ≤ (D / 2 - r) ^ 2) ∧
    (∃ p, (generateSpiralPocketCircle D s r).getLast? = some p ∧
      p.x ^ 2 + p.y ^ 2 = (D / 2 - r) ^ 2) ∧
    (r ≤ D / 2 - r → 1/1000000000 < D / 2 - r - r →
      generateSpiralPocketCircle D s r =
        ringClosed r (segmentsForCircleRadius (D / 2)) ++
        (spiralPart r (D / 2 - r - r) (spiralTurns (D / 2 - r - r) s)
          (max (segmentsForCircleRadius (D / 2) * spiralTurns (D / 2 - r - r) s) 1) ++
        closingRing (D / 2 - r) (segmentsForCircleRadius (D / 2))
          ((spiralTurns (D / 2 - r - r) s : ℝ) * (2 * Real.pi))) ∧
      (spiralTurns (D / 2 - r - r) s : ℤ) = max 1 ⌈(D / 2 - r - r) / s⌉ ∧
      (generateSpiralPocketCircle D s r).head? = some ⟨r, 0, 0⟩ ∧
      (∀ p ∈ ringClosed r (segmentsForCircleRadius (D / 2)),
        p.x ^ 2 + p.y ^ 2 = r ^ 2) ∧
      (∀ p ∈ closingRing (D / 2 - r) (segmentsForCircleRadius (D / 2))
          ((spiralTurns (D / 2 - r - r) s : ℝ) * (2 * Real.pi)),
        p.x ^ 2 + p.y ^ 2 = (D / 2 - r) ^ 2)) := by
  have hsegs : 4 ≤ segmentsForCircleRadius (D / 2) := segmentsForCircleRadius_pos _
  have hsegspos : 0 < segmentsForCircleRadius (D / 2) := by omega
  refine ⟨?_, ?_, ?_⟩
  · intro p hp
    unfold generateSpiralPocketCircle at hp
    rw [if_neg (by push_neg; exact houter)] at hp
    by_cases hsmall : D / 2 - r < r
    · rw [if_pos hsmall] at hp
      exact smallPocketPts_norm_le _ _ (le_of_lt houter) hsegspos p hp
    · rw [if_neg hsmall] at hp
      by_cases hspan : D / 2 - r - r ≤ 1/1000000000
      · rw [if_pos hspan] at hp
        rw [ringClosed_norm _ _ p hp]
      · rw [if_neg hspan] at hp
        push_neg at hsmall hspan
        rw [List.append_assoc] at hp
        rcases List.mem_append.mp hp with hring | hrest
        · rw [ringClosed_norm _ _ p hring]
          nlinarith
        · rcases List.mem_append.mp hrest with hspiral | hclosing
          · have hb := spiralPart_norm_le r (D / 2 - r - r) _ _
              (le_of_lt hr) (by linarith) (by positivity) p hspiral
            calc p.x ^ 2 + p.y ^ 2 ≤ (r + (D / 2 - r - r)) ^ 2 := hb
            _ = (D / 2 - r) ^ 2 := by ring
          · rw [closingRing_norm _ _ _ p hclosing]
  · unfold generateSpiralPocketCircle
    rw [if_neg (by push_neg; exact houter)]
    by_cases hsmall : D / 2 - r < r
    · rw [if_pos hsmall]
      unfold smallPocketPts
      rw [show ∀ (a : Pt) (l1 l2 : List Pt), a :: (l1 ++ l2) = (a :: l1) ++ l2
        from fun a l1 l2 => rfl]
      rw [getLast?_append_right _ _ (by
        simp only [ne_eq, List.map_eq_nil_iff, List.range_eq_nil]
        omega)]
      rw [getLast?_map_range _ _ hsegspos]
      exact ⟨_, rfl, circlePt_norm _ _⟩
    · rw [if_neg hsmall]
      by_cases hspan : D / 2 - r - r ≤ 1/1000000000
      · rw [if_pos hspan]
        unfold ringClosed
        rw [getLast?_map_range _ _ (by omega)]
        exact ⟨_, rfl, circlePt_norm _ _⟩
      · rw [if_neg hspan]
        rw [getLast?_append_right _ _ (closingRing_ne_nil _ _ hsegspos _)]
        unfold closingRing
        rw [getLast?_map_range _ _ hsegspos]
        exact ⟨_, rfl, circlePt_norm _ _⟩
  · intro hge hspan
    have hbranch : generateSpiralPocketCircle D s r =
        ringClosed r (segmentsForCircleRadius (D / 2)) ++
        (spiralPart r (D / 2 - r - r) (spiralTurns (D / 2 - r - r) s)
          (max (segmentsForCircleRadius (D / 2) * spiralTurns (D / 2 - r - r) s) 1) ++
        closingRing (D / 2 - r) (segmentsForCircleRadius (D / 2))
          ((spiralTurns (D / 2 - r - r) s : ℝ) * (2 * Real.pi))) := by
      unfold generateSpiralPocketCircle
      rw [if_neg (by push_neg; exact houter), if_neg (by push_neg; exact hge),
        if_neg (by push_neg; exact hspan)]
      rw [List.append_assoc]
    refine ⟨hbranch, ?_, ?_, ringClosed_norm _ _, closingRing_norm _ _ _⟩
    · unfold spiralTurns
      rw [Nat.cast_max]
      omega
    · rw [hbranch]
      rw [List.head?_append_of_ne_nil _ (ringClosed_ne_nil _ _)]
      exact ringClosed_head _ _

/--
Witness for C6 at the spec's own example, D = 50 mm, tool radius 3 mm,
stepover 3 mm: every point within radius 22, last point exactly at 22.
-/
theorem generateSpiralPocketCircle_spec_witness :
    (0 : ℝ) < 3 ∧ (0 : ℝ) < 3 ∧ (0 : ℝ) < 50 / 2 - 3 ∧
    (∀ p ∈ generateSpiralPocketCircle 50 3 3,
      p.x ^ 2 + p.y ^ 2 ≤ (50 / 2 - 3 : ℝ) ^ 2) ∧
    (∃ p, (generateSpiralPocketCircle 50 3 3).getLast? = some p ∧
      p.x ^ 2 + p.y ^ 2 = (50 / 2 - 3 : ℝ) ^ 2) ∧
    (spiralTurns (50 / 2 - 3 - 3) 3 : ℤ) = 7 := by
  have h := generateSpiralPocketCircle_spec 50 3 3 (by norm_num) (by norm_num)
    (by norm_num)
  have hc := h.2.2 (by norm_num) (by norm_num)
  refine ⟨by norm_num, by norm_num, by norm_num, h.1, h.2.1, ?_⟩
  rw [hc.2.1]
  rw [show ((50 : ℝ) / 2 - 3 - 3) / 3 = 19/3 by norm_num]
  rw [show ⌈(19/3 : ℝ)⌉ = 7 by rw [Int.ceil_eq_iff]; norm_num]
  norm_num

/--
Counterexample for C6 as stated: with D = 4 + 2e-10, stepover 1 and tool
radius 1 we have `D/2 - r > r` (so the claim demands a connecting spiral
sweeping from radius r = 1 outward), yet the radial span
`D/2 - 2r = 1e-10` is below the code's `1e-9` guard: the code emits only
the single rim circle, every generated point lies at radius
`D/2 - r = 1 + 1e-10 ≠ 1`, and no spiral from radius 1 exists.
-/
theorem generateSpiralPocketCircle_cex :
    ((4 + 1/5000000000 : ℝ) / 2 - 1 > 1) ∧
    (∀ p ∈ generateSpiralPocketCircle (4 + 1/5000000000) 1 1,
      p.x ^ 2 + p.y ^ 2 = ((4 + 1/5000000000 : ℝ) / 2 - 1) ^ 2) ∧
    ((4 + 1/5000000000 : ℝ) / 2 - 1) ^ 2 ≠ (1 : ℝ) ^ 2 := by
  refine ⟨by norm_num, ?_, by norm_num⟩
  intro p hp
  unfold generateSpiralPocketCircle at hp
  rw [if_neg (by norm_num), if_neg (by norm_num), if_pos (by norm_num)] at hp
  exact ringClosed_norm _ _ p hp

theorem drillSeqSpec_getLast (first : Bool) (safeZ leadInAbove depthZ : ℝ) :
    (drillSeqSpec first safeZ leadInAbove depthZ).getLast? =
      some ⟨0, 0, depthZ, .cut⟩ := by
  unfold drillSeqSpec
  rcases first <;> by_cases h : safeZ > leadInAbove <;> simp [h]

theorem drillSeqSpec_mem_center (first : Bool) (safeZ leadInAbove depthZ : ℝ) :
    ∀ m ∈ drillSeqSpec first safeZ leadInAbove depthZ, m.x = 0 ∧ m.y = 0 := by
  intro m hm
  unfold drillSeqSpec at hm
  rcases first <;> by_cases h : safeZ > leadInAbove <;> simp [h] at hm <;>
    aesop

theorem drillMovesForPoint_first (safeZ leadInAbove depthZ : ℝ) :
    drillMovesForPoint none 0 0 safeZ leadInAbove depthZ =
      drillSeqSpec true safeZ leadInAbove depthZ := rfl

theorem drillMovesForPoint_next (m : Move) (hx : m.x = 0) (hy : m.y = 0)
    (safeZ leadInAbove depthZ : ℝ) (hz : m.z < safeZ - 1/1000000) :
    drillMovesForPoint (some m) 0 0 safeZ leadInAbove depthZ =
      drillSeqSpec false safeZ leadInAbove depthZ := by
  have hrfl : drillMovesForPoint (some m) 0 0 safeZ leadInAbove depthZ =
      (if m.z < safeZ - 1/1000000 then [(⟨m.x, m.y, safeZ, .rapid⟩ : Move)] else []) ++
      [(⟨0, 0, safeZ, .rapid⟩ : Move)] ++
      (if safeZ > leadInAbove then [(⟨0, 0, leadInAbove, .rapid⟩ : Move)] else []) ++
      [(⟨0, 0, 0, .cut⟩ : Move), ⟨0, 0, depthZ, .cut⟩] := rfl
  rw [hrfl, if_pos hz, hx, hy]
  rfl

theorem pocketDrillLayers_go (safeZ leadInAbove : ℝ) (depths : List ℝ)
    (hdep : ∀ d ∈ depths, d < safeZ - 1/1000000) :
    ∀ acc m, acc.getLast? = some m → m.x = 0 → m.y = 0 →
      m.z < safeZ - 1/1000000 →
      pocketDrillLayers 0 0 safeZ leadInAbove depths acc =
        acc ++ (depths.map (drillSeqSpec false safeZ leadInAbove)).flatten := by
  induction depths with
  | nil =>
    intro acc m _ _ _ _
    simp [pocketDrillLayers]
  | cons d rest ih =>
    intro acc m hlast hx hy hz
    unfold pocketDrillLayers
    rw [hlast]
    rw [drillMovesForPoint_next m hx hy safeZ leadInAbove d hz]
    have hnewlast : (acc ++ drillSeqSpec false safeZ leadInAbove d).getLast? =
        some ⟨0, 0, d, .cut⟩ := by
      rw [getLast?_append_right _ _ (by
        unfold drillSeqSpec
        simp), drillSeqSpec_getLast]
    rw [ih (fun d' hd' => hdep d' (List.mem_cons_of_mem _ hd'))
      (acc ++ drillSeqSpec false safeZ leadInAbove d) ⟨0, 0, d, .cut⟩ hnewlast rfl rfl
      (hdep d (List.mem_cons_self _ _))]
    rw [List.map_cons, List.flatten_cons, List.append_assoc]

/--
C7: for a pocket on a circle, ellipse or square whose minimum dimension
equals the tool diameter to within 1e-6, the generated path degenerates
to the single point at the feature center, and for each depth level the
emitted moves are a vertical drill there: (for layers after the first) a
retract to safe height, a rapid to the point at safe height, a rapid
down to the lead-in height when safe height exceeds it, then straight
cut moves to Z = 0 and to the layer depth — with every move at the
center, i.e. no lateral cutting motion.
-/
theorem pocketEqualTool_drill_spec (shape : PocketShape)
    (stepover toolDiameter safeZ leadInAbove : ℝ) (depths : List ℝ)
    (heq : abs (getShapeMinSize shape - toolDiameter) ≤ 1/1000000)
    (hdep : ∀ d ∈ depths, d < safeZ - 1/1000000) :
    pocketPathsFor shape stepover toolDiameter = [[⟨0, 0, 0⟩]] ∧
    (depths = [] → pocketDrillLayers 0 0 safeZ leadInAbove depths [] = []) ∧
    (∀ d rest, depths = d :: rest →
      pocketDrillLayers 0 0 safeZ leadInAbove depths [] =
        drillSeqSpec true safeZ leadInAbove d ++
          (rest.map (drillSeqSpec false safeZ leadInAbove)).flatten) ∧
    (∀ m ∈ pocketDrillLayers 0 0 safeZ leadInAbove depths [], m.x = 0 ∧ m.y = 0) := by
  have hpaths : pocketPathsFor shape stepover toolDiameter = [[⟨0, 0, 0⟩]] := by
    unfold pocketPathsFor
    rw [if_pos heq]
  have hnil : depths = [] → pocketDrillLayers 0 0 safeZ leadInAbove depths [] = [] := by
    intro hd
    rw [hd]
    rfl
  have hconsmain : ∀ d rest, depths = d :: rest →
      pocketDrillLayers 0 0 safeZ leadInAbove depths [] =
        drillSeqSpec true safeZ leadInAbove d ++
          (rest.map (drillSeqSpec false safeZ leadInAbove)).flatten := by
    intro d rest hd
    subst hd
    unfold pocketDrillLayers
    rw [show ([] : List Move).getLast? = none from rfl]
    rw [drillMovesForPoint_first, List.nil_append]
    rw [pocketDrillLayers_go safeZ leadInAbove rest
      (fun d' hd' => hdep d' (List.mem_cons_of_mem _ hd'))
      (drillSeqSpec true safeZ leadInAbove d) ⟨0, 0, d, .cut⟩
      (drillSeqSpec_getLast _ _ _ _) rfl rfl (hdep d (List.mem_cons_self _ _))]
  refine ⟨hpaths, hnil, hconsmain, ?_⟩
  intro mv hmv
  match hd : depths with
  | [] =>
    rw [hnil rfl] at hmv
    simp at hmv
  | d :: rest =>
    rw [hconsmain d rest rfl] at hmv
    rcases List.mem_append.mp hmv with hfirst | hrest
    · exact drillSeqSpec_mem_center _ _ _ _ mv hfirst
    · rw [List.mem_flatten] at hrest
      obtain ⟨l, hl, hml⟩ := hrest
      rw [List.mem_map] at hl
      obtain ⟨d', _, rfl⟩ := hl
      exact drillSeqSpec_mem_center _ _ _ _ mv hml

/--
Witness for C7: a 6 mm circle pocket with a 6 mm tool, safe height 5,
lead-in 2 and depth levels [-2.5, -5] drills two vertical sequences at
the origin.
-/
theorem pocketEqualTool_drill_spec_witness :
    abs (getShapeMinSize (.circle 6) - 6) ≤ (1/1000000 : ℝ) ∧
    ((-5/2 : ℝ) < 5 - 1/1000000 ∧ (-5 : ℝ) < 5 - 1/1000000) ∧
    pocketPathsFor (.circle 6) 3 6 = [[⟨0, 0, 0⟩]] ∧
    pocketDrillLayers 0 0 5 2 [-5/2, -5] [] =
      [⟨0, 0, 5, .rapid⟩, ⟨0, 0, 2, .rapid⟩, ⟨0, 0, 0, .cut⟩, ⟨0, 0, -5/2, .cut⟩,
       ⟨0, 0, 5, .rapid⟩, ⟨0, 0, 5, .rapid⟩, ⟨0, 0, 2, .rapid⟩, ⟨0, 0, 0, .cut⟩,
       ⟨0, 0, -5, .cut⟩] := by
  have hdep : ∀ d ∈ ([-5/2, -5] : List ℝ), d < 5 - 1/1000000 := by
    intro d hd
    rcases List.mem_cons.mp hd with h1 | h2
    · rw [h1]; norm_num
    · simp at h2
      rw [h2]; norm_num
  have h := pocketEqualTool_drill_spec (.circle 6) 3 6 5 2 [-5/2, -5]
    (by unfold getShapeMinSize; norm_num) hdep
  refine ⟨by unfold getShapeMinSize; norm_num, ⟨by norm_num, by norm_num⟩, h.1, ?_⟩
  rw [h.2.2.1 (-5/2) [-5] rfl]
  simp only [List.map_cons, List.map_nil, List.flatten_cons, List.flatten_nil]
  unfold drillSeqSpec
  norm_num

theorem closedSq : closedSlice (unitSquareCCW ++ [⟨0, 0, 0⟩]) = unitSquareCCW := by
  unfold closedSlice
  rw [if_pos]
  · rfl
  · refine ⟨by norm_num [unitSquareCCW], ?_, ?_⟩ <;>
      norm_num [unitSquareCCW]

theorem dedupSq : dedupPts unitSquareCCW = unitSquareCCW := by
  norm_num [dedupPts, dedupAux, unitSquareCCW]

theorem cleanupPassSq : cleanupPass unitSquareCCW = (unitSquareCCW, false) := by
  unfold cleanupPass
  rw [show unitSquareCCW.length = 4 from rfl, show List.range 4 = [0, 1, 2, 3] from rfl]
  simp only [List.foldl_cons, List.foldl_nil]
  norm_num [cyc, distance2D, hypot, unitSquareCCW, Real.sqrt_one]

theorem cleanupLoopSq : cleanupLoop 3 unitSquareCCW = some unitSquareCCW := by
  unfold cleanupLoop
  rw [cleanupPassSq]
  norm_num [unitSquareCCW]

theorem areaSq : polygonSignedArea2 unitSquareCCW = -2 := by
  unfold polygonSignedArea2 unitSquareCCW
  norm_num [Finset.sum_range_succ, ptX, ptY, List.getD]

theorem signSq : windingSign unitSquareCCW = -1 := by
  unfold windingSign
  rw [areaSq]
  norm_num

theorem offsetVertexSq0 :
    offsetVertex unitSquareCCW (-1) (1/4) 0 0 = some ⟨-(1/4), -(1/4), 0⟩ := by
  unfold offsetVertex
  rw [if_neg]
  · unfold miterPoint
    rw [if_neg]
    · unfold miterParam
      norm_num [cyc, unitSquareCCW, hypot, Real.sqrt_one]
    · norm_num [cyc, unitSquareCCW]
  · push_neg
    constructor <;> norm_num [cyc, distance2D, unitSquareCCW, hypot, Real.sqrt_one]

theorem offsetVertexSq1 :
    offsetVertex unitSquareCCW (-1) (1/4) 0 1 = some ⟨5/4, -(1/4), 0⟩ := by
  unfold offsetVertex
  rw [if_neg]
  · unfold miterPoint
    rw [if_neg]
    · unfold miterParam
      norm_num [cyc, unitSquareCCW, hypot, Real.sqrt_one]
    · norm_num [cyc, unitSquareCCW]
  · push_neg
    constructor <;> norm_num [cyc, distance2D, unitSquareCCW, hypot, Real.sqrt_one]

theorem offsetVertexSq2 :
    offsetVertex unitSquareCCW (-1) (1/4) 0 2 = some ⟨5/4, 5/4, 0⟩ := by
  unfold offsetVertex
  rw [if_neg]
  · unfold miterPoint
    rw [if_neg]
    · unfold miterParam
      norm_num [cyc, unitSquareCCW, hypot, Real.sqrt_one]
    · norm_num [cyc, unitSquareCCW]
  · push_neg
    constructor <;> norm_num [cyc, distance2D, unitSquareCCW, hypot, Real.sqrt_one]

theorem offsetVertexSq3 :
    offsetVertex unitSquareCCW (-1) (1/4) 0 3 = some ⟨-(1/4), 5/4, 0⟩ := by
  unfold offsetVertex
  rw [if_neg]
  · unfold miterPoint
    rw [if_neg]
    · unfold miterParam
      norm_num [cyc, unitSquareCCW, hypot, Real.sqrt_one]
    · norm_num [cyc, unitSquareCCW]
  · push_neg
    constructor <;> norm_num [cyc, distance2D, unitSquareCCW, hypot, Real.sqrt_one]

theorem offsetVertsSq :
    offsetVerts unitSquareCCW (-1) (1/4) 0 = some bigSqCCW := by
  unfold offsetVerts
  rw [show unitSquareCCW.length = 4 from rfl, show List.range 4 = [0, 1, 2, 3] from rfl]
  simp only [offsetVertsAux, offsetVertexSq0, offsetVertexSq1, offsetVertexSq2,
    offsetVertexSq3]
  rfl

theorem areaBigSq : polygonSignedArea2 bigSqCCW = -(9/2) := by
  unfold polygonSignedArea2 bigSqCCW
  norm_num [Finset.sum_range_succ, ptX, ptY, List.getD]

theorem z0Sq : ((unitSquareCCW.head?.getD default).z) = 0 := rfl

theorem headBigSqX : ((bigSqCCW.head?.getD default).x) = -(1/4) := rfl

theorem headBigSqY : ((bigSqCCW.head?.getD default).y) = -(1/4) := rfl

theorem contourOffset_squareCCW_eval :
    contourOffset (unitSquareCCW ++ [⟨0, 0, 0⟩]) (1/4) =
      .ok (bigSqCCW ++ [⟨-(1/4), -(1/4), 0⟩]) := by
  unfold contourOffset
  simp only [closedSq, dedupSq, z0Sq, signSq, cleanupLoopSq, offsetVertsSq,
    areaBigSq, areaSq, headBigSqX, headBigSqY]
  norm_num [unitSquareCCW, bigSqCCW]
  intro hcon
  rw [abs_of_nonneg (by norm_num)] at hcon
  norm_num at hcon

theorem closedSqCW : closedSlice (unitSquareCW ++ [⟨0, 0, 0⟩]) = unitSquareCW := by
  unfold closedSlice
  rw [if_pos]
  · rfl
  · refine ⟨by norm_num [unitSquareCW], ?_, ?_⟩ <;>
      norm_num [unitSquareCW]

theorem dedupSqCW : dedupPts unitSquareCW = unitSquareCW := by
  norm_num [dedupPts, dedupAux, unitSquareCW]

theorem cleanupPassSqCW : cleanupPass unitSquareCW = (unitSquareCW, false) := by
  unfold cleanupPass
  rw [show unitSquareCW.length = 4 from rfl, show List.range 4 = [0, 1, 2, 3] from rfl]
  simp only [List.foldl_cons, List.foldl_nil]
  norm_num [cyc, distance2D, hypot, unitSquareCW, Real.sqrt_one]

theorem cleanupLoopSqCW : cleanupLoop 3 unitSquareCW = some unitSquareCW := by
  unfold cleanupLoop
  rw [cleanupPassSqCW]
  norm_num [unitSquareCW]

theorem areaSqCW : polygonSignedArea2 unitSquareCW = 2 := by
  unfold polygonSignedArea2 unitSquareCW
  norm_num [Finset.sum_range_succ, ptX, ptY, List.getD]

theorem signSqCW : windingSign unitSquareCW = 1 := by
  unfold windingSign
  rw [areaSqCW]
  norm_num

theorem offsetVertexSqCW0 :
    offsetVertex unitSquareCW 1 (1/4) 0 0 = some ⟨-(1/4), -(1/4), 0⟩ := by
  unfold offsetVertex
  rw [if_neg]
  · unfold miterPoint
    rw [if_neg]
    · unfold miterParam
      norm_num [cyc, unitSquareCW, hypot, Real.sqrt_one]
    · norm_num [cyc, unitSquareCW]
  · push_neg
    constructor <;> norm_num [cyc, distance2D, unitSquareCW, hypot, Real.sqrt_one]

theorem offsetVertexSqCW1 :
    offsetVertex unitSquareCW 1 (1/4) 0 1 = some ⟨-(1/4), 5/4, 0⟩ := by
  unfold offsetVertex
  rw [if_neg]
  · unfold miterPoint
    rw [if_neg]
    · unfold miterParam
      norm_num [cyc, unitSquareCW, hypot, Real.sqrt_one]
    · norm_num [cyc, unitSquareCW]
  · push_neg
    constructor <;> norm_num [cyc, distance2D, unitSquareCW, hypot, Real.sqrt_one]

theorem offsetVertexSqCW2 :
    offsetVertex unitSquareCW 1 (1/4) 0 2 = some ⟨5/4, 5/4, 0⟩ := by
  unfold offsetVertex
  rw [if_neg]
  · unfold miterPoint
    rw [if_neg]
    · unfold miterParam
      norm_num [cyc, unitSquareCW, hypot, Real.sqrt_one]
    · norm_num [cyc, unitSquareCW]
  · push_neg
    constructor <;> norm_num [cyc, distance2D, unitSquareCW, hypot, Real.sqrt_one]

theorem offsetVertexSqCW3 :
    offsetVertex unitSquareCW 1 (1/4) 0 3 = some ⟨5/4, -(1/4), 0⟩ := by
  unfold offsetVertex
  rw [if_neg]
  · unfold miterPoint
    rw [if_neg]
    · unfold miterParam
      norm_num [cyc, unitSquareCW, hypot, Real.sqrt_one]
    · norm_num [cyc, unitSquareCW]
  · push_neg
    constructor <;> norm_num [cyc, distance2D, unitSquareCW, hypot, Real.sqrt_one]

theorem offsetVertsSqCW :
    offsetVerts unitSquareCW 1 (1/4) 0 = some bigSqCW := by
  unfold offsetVerts
  rw [show unitSquareCW.length = 4 from rfl, show List.range 4 = [0, 1, 2, 3] from rfl]
  simp only [offsetVertsAux, offsetVertexSqCW0, offsetVertexSqCW1, offsetVertexSqCW2,
    offsetVertexSqCW3]
  rfl

theorem areaBigSqCW : polygonSignedArea2 bigSqCW = 9/2 := by
  unfold polygonSignedArea2 bigSqCW
  norm_num [Finset.sum_range_succ, ptX, ptY, List.getD]

theorem z0SqCW : ((unitSquareCW.head?.getD default).z) = 0 := rfl

theorem headBigSqCWX : ((bigSqCW.head?.getD default).x) = -(1/4) := rfl

theorem headBigSqCWY : ((bigSqCW.head?.getD default).y) = -(1/4) := rfl

theorem contourOffset_squareCW_eval :
    contourOffset (unitSquareCW ++ [⟨0, 0, 0⟩]) (1/4) =
      .ok (bigSqCW ++ [⟨-(1/4), -(1/4), 0⟩]) := by
  unfold contourOffset
  simp only [closedSqCW, dedupSqCW, z0SqCW, signSqCW, cleanupLoopSqCW, offsetVertsSqCW,
    areaBigSqCW, areaSqCW, headBigSqCWX, headBigSqCWY]
  norm_num [unitSquareCW, bigSqCW]
  intro hcon
  rw [abs_of_nonneg (by norm_num)] at hcon
  norm_num at hcon

theorem miterPoint_z (prev curr next : Pt) (sign d z0 : ℝ) :
    (miterPoint prev curr next sign d z0).z = z0 := by
  unfold miterPoint
  split_ifs <;> rfl

theorem offsetVertex_z (pts : List Pt) (sign d z0 : ℝ) (i : ℕ) (p : Pt)
    (h : offsetVertex pts sign d z0 i = some p) : p.z = z0 := by
  unfold offsetVertex at h
  split_ifs at h
  injection h with h
  rw [← h]
  exact miterPoint_z _ _ _ _ _ _

theorem offsetVertsAux_spec (pts : List Pt) (sign d z0 : ℝ) (idx : List ℕ) :
    ∀ l, offsetVertsAux pts sign d z0 idx = some l →
      l.length = idx.length ∧ ∀ p ∈ l, p.z = z0 := by
  induction idx with
  | nil =>
    intro l h
    simp only [offsetVertsAux, Option.some.injEq] at h
    rw [← h]
    simp
  | cons i rest ih =>
    intro l h
    simp only [offsetVertsAux] at h
    rcases hv : offsetVertex pts sign d z0 i with _ | p <;> rw [hv] at h
    · simp at h
    rcases haux : offsetVertsAux pts sign d z0 rest with _ | l2 <;> rw [haux] at h
    · simp at h
    simp only [Option.some.injEq] at h
    obtain ⟨hlen, hz⟩ := ih l2 haux
    rw [← h]
    refine ⟨by simp [hlen], ?_⟩
    intro q hq
    rcases List.mem_cons.mp hq with hq | hq
    · rw [hq]
      exact offsetVertex_z pts sign d z0 i p hv
    · exact hz q hq

theorem offsetVerts_spec (pts : List Pt) (sign d z0 : ℝ) (l : List Pt)
    (h : offsetVerts pts sign d z0 = some l) :
    l.length = pts.length ∧ ∀ p ∈ l, p.z = z0 := by
  have h2 := offsetVertsAux_spec pts sign d z0 (List.range pts.length) l h
  simpa using h2

theorem cleanupLoop_some_length (fuel : ℕ) :
    ∀ pts out, 3 ≤ pts.length → cleanupLoop fuel pts = some out → 3 ≤ out.length := by
  induction fuel with
  | zero =>
    intro pts out hlen h
    simp only [cleanupLoop, Option.some.injEq] at h
    rw [← h]
    exact hlen
  | succ k ih =>
    intro pts out hlen h
    simp only [cleanupLoop] at h
    split_ifs at h with h1 h2
    · exact ih _ _ (by omega) h
    · simp only [Option.some.injEq] at h
      rw [← h]
      omega

/-- C2: for every contour and nonzero offset distance, a successful
`contourOffset` returns a closed polyline (the first point is repeated at the
end) with at least four points; every unsuccessful run surfaces one of the
enumerated diagnostic reasons by construction of `OffsetFail`. -/
theorem contourOffset_spec (contour : List Pt) (d : ℝ) (hd : d ≠ 0)
    (out : List Pt) (h : contourOffset contour d = .ok out) :
    4 ≤ out.length ∧ out.head? = out.getLast? := by
  unfold contourOffset at h
  split_ifs at h with h1 h2
  rcases hcl : cleanupLoop 3 (dedupPts (closedSlice contour)) with _ | pts2 <;>
    rw [hcl] at h
  · simp at h
  simp only [] at h
  rcases hov : offsetVerts pts2 (windingSign pts2) d ((pts2.head?.getD default).z)
      with _ | result <;> rw [hov] at h
  · simp at h
  simp only [] at h
  split_ifs at h with h4 h5 h6
  simp only [Except.ok.injEq] at h
  obtain ⟨hlen, hz⟩ := offsetVerts_spec _ _ _ _ _ hov
  have hp2 : 3 ≤ pts2.length := cleanupLoop_some_length 3 _ _ (by omega) hcl
  clear h1
  have hr3 : 3 ≤ result.length := by omega
  rcases result with _ | ⟨r0, rtl⟩
  · simp at hr3
  constructor
  · rw [← h]
    simp only [List.length_cons] at hr3
    simp
    omega
  · have hz0 : r0.z = (pts2.head?.getD default).z := hz r0 (by simp)
    rw [← h]
    rw [List.head?_append_of_ne_nil _ (by simp)]
    rw [List.getLast?_append_of_ne_nil _ (by simp)]
    simp [← hz0]

theorem contourOffset_spec_witness :
    (1/4 : ℝ) ≠ 0 ∧
    4 ≤ (bigSqCCW ++ [(⟨-(1/4), -(1/4), 0⟩ : Pt)]).length ∧
    (bigSqCCW ++ [(⟨-(1/4), -(1/4), 0⟩ : Pt)]).head? =
      (bigSqCCW ++ [(⟨-(1/4), -(1/4), 0⟩ : Pt)]).getLast? :=
  ⟨by norm_num,
   contourOffset_spec (unitSquareCCW ++ [⟨0, 0, 0⟩]) (1/4) (by norm_num)
     (bigSqCCW ++ [⟨-(1/4), -(1/4), 0⟩]) contourOffset_squareCCW_eval⟩

/-- C3: positive offset distance moves the contour OUTWARD, not inward: on the
unit square (either winding) every output point of `contourOffset _ (1/4)`
lies strictly outside the square. -/
theorem contourOffset_outward_bug :
    ∃ outCCW outCW : List Pt,
      contourOffset (unitSquareCCW ++ [⟨0, 0, 0⟩]) (1/4) = .ok outCCW ∧
      contourOffset (unitSquareCW ++ [⟨0, 0, 0⟩]) (1/4) = .ok outCW ∧
      (∀ p ∈ outCCW, p.x < 0 ∨ 1 < p.x ∨ p.y < 0 ∨ 1 < p.y) ∧
      (∀ p ∈ outCW, p.x < 0 ∨ 1 < p.x ∨ p.y < 0 ∨ 1 < p.y) := by
  refine ⟨_, _, contourOffset_squareCCW_eval, contourOffset_squareCW_eval, ?_, ?_⟩ <;>
  · intro p hp
    simp only [bigSqCCW, bigSqCW, List.mem_append, List.mem_cons,
      List.not_mem_nil, or_false] at hp
    rcases hp with (hp | hp | hp | hp) | hp <;> subst hp <;> norm_num

theorem openPathLength_tabSquare : openPathLength tabSquarePath = 12 := by
  unfold tabSquarePath
  simp only [openPathLength, distance2D]
  rw [hypot_eq _ _ 4 (by norm_num) (by norm_num),
    hypot_eq _ _ 4 (by norm_num) (by norm_num),
    hypot_eq _ _ 4 (by norm_num) (by norm_num)]
  norm_num

theorem closingLength_tabSquare : closingLength tabSquarePath = 4 := by
  unfold tabSquarePath closingLength distance2D
  simp only [List.getLast?_cons, List.getLast?_singleton, Option.getD_some, List.head?_cons]
  rw [hypot_eq _ _ 4 (by norm_num) (by norm_num)]

theorem tabCount_16_4 : tabCount 16 4 = 4 := by
  unfold tabCount
  rw [show ((16 : ℝ) / 4) = 4 by norm_num, jsRound_eq (4 : ℝ) 4 (by norm_num) (by norm_num)]
  rfl

theorem tabSpacing_16_4 : tabSpacing (16 : ℝ) 4 = 4 := by
  unfold tabSpacing
  rw [tabCount_16_4]
  norm_num

/--
Witness for C8 on a 4 mm square with interval 4, width 1, totalDepth 5,
tabHeight 2: the config exists, carries `tabZ = -3`, and the Z profile at
the flat middle of the first tab is `tabZ`.
-/
theorem buildTabConfig_getZ_spec_witness :
    2 ≤ tabSquarePath.length ∧ (0 : ℝ) < 4 ∧ (0 : ℝ) < 1 ∧ (0 : ℝ) < 2 ∧
    (2 : ℝ) ≤ 5 ∧ 0 < openPathLength tabSquarePath ∧
    (1 : ℝ) < tabSpacing (openPathLength tabSquarePath + closingLength tabSquarePath) 4 ∧
    (1/1000000000 : ℝ) < 1 / 4 ∧
    ∃ cfg, buildTabConfig tabSquarePath 4 1 5 2 = some cfg ∧
      cfg.tabZ = -3 ∧ cfg.tabWidth = 1 ∧
      getZForTabProfile 2 (-5) (some cfg) = -3 := by
  have hL : openPathLength tabSquarePath = 12 := openPathLength_tabSquare
  have hC : closingLength tabSquarePath = 4 := closingLength_tabSquare
  have hlc : openPathLength tabSquarePath + closingLength tabSquarePath = 16 := by
    rw [hL, hC]; norm_num
  have hsp : tabSpacing (openPathLength tabSquarePath + closingLength tabSquarePath) 4 = 4 := by
    rw [hlc]; exact tabSpacing_16_4
  obtain ⟨cfg, hcfg, htabZ, hwidth, _, _, _, hprof⟩ :=
    buildTabConfig_getZ_spec tabSquarePath 4 1 5 2
      (by norm_num [tabSquarePath]) (by norm_num) (by norm_num) (by norm_num)
      (by norm_num) (by rw [hL]; norm_num) (by rw [hsp]; norm_num) (by norm_num)
  have htabZ3 : cfg.tabZ = -3 := by rw [htabZ]; norm_num
  refine ⟨by norm_num [tabSquarePath], by norm_num, by norm_num, by norm_num,
    by norm_num, by rw [hL]; norm_num, by rw [hsp]; norm_num, by norm_num,
    cfg, hcfg, htabZ3, hwidth, ?_⟩
  have hk0 : 0 < tabCount (openPathLength tabSquarePath + closingLength tabSquarePath) 4 := by
    rw [hlc, tabCount_16_4]
    norm_num
  have hmid := ((hprof 2 (-5)).2 (by rw [htabZ3]; norm_num) 0 hk0).1
  rw [htabZ3] at hmid
  apply hmid
  unfold evenTabRange
  rw [hsp]
  norm_num

/--
Witness for C10 on a concrete two-move list: the transform shifts both
moves by the same vector and preserves the difference of coordinates.
-/
theorem applyOriginTransform_translation_witness :
    (0 : ℕ) < 2 ∧ (1 : ℕ) < 2 ∧
    (((applyOriginTransform
          [⟨1, 2, -3, .cut⟩, ⟨4, 6, -3, .rapid⟩]
          ⟨.bottomLeft, .stockBottom, 1⟩ 5 3 .pocket .inside none).get
        ⟨0, by norm_num [applyOriginTransform, originShiftXY]⟩).x -
      ((applyOriginTransform
          [⟨1, 2, -3, .cut⟩, ⟨4, 6, -3, .rapid⟩]
          ⟨.bottomLeft, .stockBottom, 1⟩ 5 3 .pocket .inside none).get
        ⟨1, by norm_num [applyOriginTransform, originShiftXY]⟩).x =
      (([⟨1, 2, -3, .cut⟩, ⟨4, 6, -3, .rapid⟩] : List Move).get
          ⟨0, by norm_num⟩).x -
        (([⟨1, 2, -3, .cut⟩, ⟨4, 6, -3, .rapid⟩] : List Move).get
          ⟨1, by norm_num⟩).x) := by
  refine ⟨by norm_num, by norm_num, ?_⟩
  have h := (applyOriginTransform_translation
    [⟨1, 2, -3, .cut⟩, ⟨4, 6, -3, .rapid⟩]
    ⟨.bottomLeft, .stockBottom, 1⟩ 5 3 .pocket .inside none).2.2
    0 1 (by norm_num) (by norm_num)
  exact h.1

theorem extendBestJ_succ (points : List Pt) (i fuel bestJ : ℕ) :
    extendBestJ points i (fuel + 1) bestJ =
      if bestJ + 1 ≤ points.length ∧ arcOk points i (bestJ + 1) then
        extendBestJ points i fuel (bestJ + 1)
      else bestJ := rfl

theorem fitArcsAux_succ (points : List Pt) (z : ℝ) (fuel i : ℕ) :
    fitArcsAux points z (fuel + 1) i =
      if points.length ≤ i then []
      else if points.length - 2 ≤ i then
        .line (arcP0 points i).x (arcP0 points i).y (arcP0 points i).z ::
          fitArcsAux points z fuel (i + 1)
      else if i + 2 < bestJFor points i ∧ fitDenomOk points i (bestJFor points i) then
        .arc (arcEnd points (bestJFor points i)).x (arcEnd points (bestJFor points i)).y z
          (fitCx points i (bestJFor points i) - (arcP0 points i).x)
          (fitCy points i (bestJFor points i) - (arcP0 points i).y)
          (decide (arcCross points i (bestJFor points i) < 0)) ::
          fitArcsAux points z fuel (bestJFor points i)
      else
        .line (arcP0 points i).x (arcP0 points i).y (arcP0 points i).z ::
          fitArcsAux points z fuel (i + 1) := rfl

theorem fitDenomOk_helix_3 : fitDenomOk helixPts 0 3 := by
  unfold fitDenomOk
  norm_num [circleDenom, arcP0, arcMid, arcEnd, helixPts, List.getD]

theorem fitDenomOk_helix_4 : fitDenomOk helixPts 0 4 := by
  unfold fitDenomOk
  norm_num [circleDenom, arcP0, arcMid, arcEnd, helixPts, List.getD]

theorem fitCx_helix_3 : fitCx helixPts 0 3 = 0 := by
  unfold fitCx
  norm_num [circleCx, circleDenom, arcP0, arcMid, arcEnd, helixPts, List.getD]

theorem fitCy_helix_3 : fitCy helixPts 0 3 = 0 := by
  unfold fitCy
  norm_num [circleCy, circleDenom, arcP0, arcMid, arcEnd, helixPts, List.getD]

theorem fitR_helix_3 : fitR helixPts 0 3 = 1 := by
  unfold fitR
  rw [fitCx_helix_3, fitCy_helix_3]
  norm_num [arcP0, helixPts, List.getD, hypot, Real.sqrt_one]

theorem fitCx_helix_4 : fitCx helixPts 0 4 = 0 := by
  unfold fitCx
  norm_num [circleCx, circleDenom, arcP0, arcMid, arcEnd, helixPts, List.getD]

theorem fitCy_helix_4 : fitCy helixPts 0 4 = 0 := by
  unfold fitCy
  norm_num [circleCy, circleDenom, arcP0, arcMid, arcEnd, helixPts, List.getD]

theorem fitR_helix_4 : fitR helixPts 0 4 = 1 := by
  unfold fitR
  rw [fitCx_helix_4, fitCy_helix_4]
  norm_num [arcP0, helixPts, List.getD, hypot, Real.sqrt_one]

theorem arcOk_helix_3 : arcOk helixPts 0 3 := by
  refine ⟨fitDenomOk_helix_3, ?_⟩
  intro k hk hk1
  simp only [List.mem_range] at hk
  interval_cases k
  rw [fitCx_helix_3, fitCy_helix_3, fitR_helix_3]
  norm_num [pointToCircleDeviation, helixPts, List.getD, hypot, Real.sqrt_one]

theorem arcOk_helix_4 : arcOk helixPts 0 4 := by
  refine ⟨fitDenomOk_helix_4, ?_⟩
  intro k hk hk1
  simp only [List.mem_range] at hk
  rw [fitCx_helix_4, fitCy_helix_4, fitR_helix_4]
  interval_cases k <;>
    norm_num [pointToCircleDeviation, helixPts, List.getD, hypot, Real.sqrt_one]

theorem bestJ_helix : bestJFor helixPts 0 = 4 := by
  have h1 : extendBestJ helixPts 0 3 4 = 4 := by
    rw [show (3 : ℕ) = 2 + 1 from rfl, extendBestJ_succ, if_neg]
    rintro ⟨h5, -⟩
    norm_num [helixPts] at h5
  have h2 : extendBestJ helixPts 0 4 3 = 4 := by
    rw [show (4 : ℕ) = 3 + 1 from rfl, extendBestJ_succ,
      if_pos ⟨by norm_num [helixPts], arcOk_helix_4⟩]
    exact h1
  have h3 : extendBestJ helixPts 0 5 2 = 4 := by
    rw [show (5 : ℕ) = 4 + 1 from rfl, extendBestJ_succ,
      if_pos ⟨by norm_num [helixPts], arcOk_helix_3⟩]
    exact h2
  unfold bestJFor
  rw [show helixPts.length + 1 = 5 from rfl]
  exact h3

theorem arcCross_helix : arcCross helixPts 0 4 = -1 := by
  unfold arcCross
  rw [fitCx_helix_4, fitCy_helix_4]
  norm_num [arcP0, arcEnd, helixPts, List.getD]

theorem fitArcsAux_helix_done : fitArcsAux helixPts 0 4 4 = [] := by
  rw [show fitArcsAux helixPts 0 4 4 = fitArcsAux helixPts 0 (3 + 1) 4 from rfl,
    fitArcsAux_succ, if_pos (by norm_num [helixPts])]

theorem fitArcs_helix :
    fitArcsToPoints helixPts = [.arc 0 (-1) 0 (-1) 0 true] := by
  unfold fitArcsToPoints
  rw [if_neg (by norm_num [helixPts])]
  rw [show ((helixPts.head?.getD default).z) = 0 from rfl]
  rw [show helixPts.length + 1 = 4 + 1 from rfl]
  rw [fitArcsAux_succ]
  rw [if_neg (by norm_num [helixPts]), if_neg (by norm_num [helixPts]),
    if_pos ⟨by rw [bestJ_helix]; norm_num, by rw [bestJ_helix]; exact fitDenomOk_helix_4⟩]
  rw [bestJ_helix, fitArcsAux_helix_done, fitCx_helix_4, fitCy_helix_4]
  rw [show decide (arcCross helixPts 0 4 < 0) = true from
    decide_eq_true (by rw [arcCross_helix]; norm_num)]
  norm_num [arcEnd, arcP0, helixPts, List.getD]

/-- C5: the arc fitter changes the physical path far beyond the 0.03 mm
tolerance: `replaceCutRunsWithArcs` collects consecutive cut moves without
checking that they share a Z, fits the circle in XY only, and stamps the
run's FIRST z on the emitted arc.  On a descending quarter-circle helix
ending at z = -3 the whole run is replaced by one arc at z = 0. -/
theorem replaceCutRunsWithArcs_z_bug :
    replaceCutRunsWithArcs helixRun = [⟨0, -1, 0, .arc (-1) 0 true⟩] ∧
    (helixRun.getLast?.getD default).z = -3 ∧
    (∀ m ∈ replaceCutRunsWithArcs helixRun, m.z = 0) ∧
    ¬ abs ((0 : ℝ) - (-3)) ≤ 3/100 := by
  have h1 : replaceAux 4 [] = [] := rfl
  have h2 : replaceAux (4 + 1) helixRun =
      (fitArcsToPoints helixPts).map segToMove ++ replaceAux 4 [] := rfl
  have hout : replaceCutRunsWithArcs helixRun = [⟨0, -1, 0, .arc (-1) 0 true⟩] := by
    unfold replaceCutRunsWithArcs
    rw [show helixRun.length + 1 = 4 + 1 from rfl, h2, h1, fitArcs_helix]
    simp [segToMove]
  refine ⟨hout, rfl, ?_, by norm_num⟩
  rw [hout]
  intro m hm
  simp only [List.mem_singleton] at hm
  rw [hm]

end Gcode
